import Mathlib

/-!
# Verification of the Fluent genetic-optimizer core

This file is a shallow embedding, in Lean 4, of the design-space optimizer of
the Fluent repository (`src/optimizer.py`, together with the pieces of
`src/main.py`, `src/model_generator.py` and `src/su2_interface.py` that the
optimizer observes), and proofs about it.

Modelling conventions:
* Python floats are modelled by `ℚ`; the single place where the source can
  produce `+infinity` (`cl / cd if cd else float("inf")` in
  `SU2Interface._parse_results`) is modelled by the extended type `Flt`.
* Python's global `random` module is modelled as an oracle: three fixed
  streams (`units` for `random.random`/`random.uniform`, `gaussv` for
  `random.gauss`, `ints` for the integer draws behind `random.randint` and
  `random.sample`) together with cursors.  `random.seed(s)` fixes the streams,
  so "same seed" is modelled as "same streams".
* `uuid.uuid4()` draws (used by `VSPModelGenerator.generate_geometry` for
  `design_id`) do NOT come from the seeded `random` module; they are modelled
  as a separate stream `uuids` with its own cursor.
* Python exceptions are modelled by `Except PyErr`; object state that survives
  an exception (`self._history`, the CSV file on disk) is threaded explicitly,
  so every operation returns `Except PyErr α × RunState`.
* Python dicts (individuals, metadata, merged records) are insertion-ordered
  association lists; `{**a, **b}` is `dictUpdate`, `d[k]` is `dgetE`
  (raising `KeyError`), `d.get(k, v)` is `(dget d k).getD v`.
* Pure logging, plotting (`OptimisationVisualizer`) and the external OpenVSP /
  SU2 side effects are not modelled, except where they can raise: the
  `max(...)` over the per-generation history in `optimise`'s logging line is
  kept (it raises `ValueError` on an empty generation).
-/

deriving instance DecidableEq for Except

namespace Fluent

/-- Python exceptions that the modelled code can raise. -/
inductive PyErr where
  | timeoutError (msg : String)
  | runtimeError (msg : String)
  | valueError (msg : String)
  | keyError (key : String)
deriving DecidableEq, Repr

/-- A Python float that is either an ordinary (rational) value or `+infinity`.
`+infinity` arises in the source only from `float("inf")` in
`SU2Interface._parse_results`. -/
inductive Flt where
  | num : ℚ → Flt
  | posInf : Flt
deriving DecidableEq, Repr

/-- `a < b` on modelled floats, as Python compares them. -/
def Flt.blt : Flt → Flt → Bool
  | num a, num b => a < b
  | num _, posInf => true
  | posInf, _ => false

/-- `a ≤ b` on modelled floats. -/
def Flt.ble : Flt → Flt → Bool
  | num a, num b => a ≤ b
  | posInf, num _ => false
  | _, posInf => true

/-- An insertion-ordered Python dict with string keys and float values
(design individuals, metadata, merged evaluation parameters). -/
abbrev Dict := List (String × ℚ)

/-- `d.get(k)` / `d.get(k, default)`: value of the first entry with key `k`. -/
def dget : Dict → String → Option ℚ
  | [], _ => none
  | (k', v) :: rest, k => if k' = k then some v else dget rest k

/-- `d[k]`: raises `KeyError` when the key is absent. -/
def dgetE (d : Dict) (k : String) : Except PyErr ℚ :=
  match dget d k with
  | some v => .ok v
  | none => .error (.keyError k)

/-- `d[k] = v`: replaces the value of an existing key in place (first
occurrence), otherwise appends the new key at the end — Python dict
assignment semantics. -/
def dset : Dict → String → ℚ → Dict
  | [], k, v => [(k, v)]
  | (k', v') :: rest, k, v =>
    if k' = k then (k, v) :: rest else (k', v') :: dset rest k v

/-- `{**a, **b}`: `a` updated by every entry of `b`, in order. -/
def dictUpdate (a b : Dict) : Dict :=
  b.foldl (fun acc kv => dset acc kv.1 kv.2) a

/-- The state of Python's (seeded) global `random` module, abstracted as three
draw streams with cursors: `units` backs `random.random`/`random.uniform`,
`gaussv` backs `random.gauss` (values of a standard normal variate), `ints`
backs the integer draws behind `random.randint` and `random.sample`.
`random.seed` fixes the three streams. -/
structure Rng where
  units : ℕ → ℚ
  gaussv : ℕ → ℚ
  ints : ℕ → ℕ
  uPos : ℕ
  gPos : ℕ
  iPos : ℕ

/-- One `random.random()` draw. -/
def nextUnit (r : Rng) : ℚ × Rng :=
  (r.units r.uPos, { r with uPos := r.uPos + 1 })

/-- One standard-normal draw backing `random.gauss`. -/
def nextGauss (r : Rng) : ℚ × Rng :=
  (r.gaussv r.gPos, { r with gPos := r.gPos + 1 })

/-- One raw integer draw. -/
def nextInt (r : Rng) : ℕ × Rng :=
  (r.ints r.iPos, { r with iPos := r.iPos + 1 })

/-- `random.uniform(a, b)`: `a + (b - a) * random.random()` (CPython). -/
def pyUniform (a b : ℚ) (r : Rng) : ℚ × Rng :=
  let (u, r') := nextUnit r
  (a + (b - a) * u, r')

/-- `random.randint(a, b)`: uniform integer in `[a, b]`; raises `ValueError`
when the range is empty (`b < a`). -/
def pyRandint (a b : ℤ) (r : Rng) : Except PyErr ℤ × Rng :=
  if b < a then (.error (.valueError "empty range for randrange"), r)
  else
    let (k, r') := nextInt r
    (.ok (a + (k : ℤ) % (b - a + 1)), r')

/-- Helper for `pySample`: draw one element out of a pool by index. -/
def pickOne (pool : List ℕ) (r : Rng) : Option (ℕ × List ℕ) × Rng :=
  match pool with
  | [] => (none, r)
  | _ :: _ =>
    let (k, r') := nextInt r
    let j := k % pool.length
    ((pool.get? j).map (fun x => (x, pool.eraseIdx j)), r')

/-- Helper for `pySample`: draw `k` distinct elements from the pool. -/
def sampleFrom : ℕ → List ℕ → Rng → List ℕ × Rng
  | 0, _, r => ([], r)
  | n + 1, pool, r =>
    match pickOne pool r with
    | (none, r') => ([], r')
    | (some (x, rest), r') =>
      let (xs, r'') := sampleFrom n rest r'
      (x :: xs, r'')

/-- `random.sample(range(n), k)`: `k` distinct indices below `n`, drawn
without replacement; raises `ValueError` when `k > n`. -/
def pySample (n k : ℕ) (r : Rng) : Except PyErr (List ℕ) × Rng :=
  if k > n then (.error (.valueError "Sample larger than population or is negative"), r)
  else
    let (xs, r') := sampleFrom k (List.range n) r
    (.ok xs, r')

/-- `list[i]` for a Lean list: raises `IndexError` (modelled as a
`runtimeError`) when out of range. -/
def pyIndex {α : Type} (l : List α) (i : ℕ) : Except PyErr α :=
  match l.get? i with
  | some x => .ok x
  | none => .error (.runtimeError "list index out of range")

/-- `max(xs, key=f)` where `f` can raise: returns the FIRST element whose key
is maximal (Python replaces the running best only on strict `>`); raises
`ValueError` on an empty sequence. -/
def pyMaxBy {α : Type} (f : α → Except PyErr Flt) (l : List α) : Except PyErr α :=
  match l with
  | [] => .error (.valueError "max arg is an empty sequence")
  | x :: xs =>
    match f x with
    | .error e => .error e
    | .ok kx => go x kx xs
where
  go (best : α) (bestKey : Flt) : List α → Except PyErr α
    | [] => .ok best
    | y :: ys =>
      match f y with
      | .error e => .error e
      | .ok ky => if Flt.blt bestKey ky then go y ky ys else go best bestKey ys

/-- `max(range(len(l)), key=lambda i: l[i])`: index of the first maximal
element; `ValueError` on an empty list. -/
def argmaxAux : List Flt → Flt → ℕ → ℕ → ℕ × Flt
  | [], bk, best, _ => (best, bk)
  | y :: ys, bk, best, i =>
    if Flt.blt bk y then argmaxAux ys y i (i + 1) else argmaxAux ys bk best (i + 1)

/-- See `argmaxAux`; `ValueError` on an empty list. -/
def argmaxFirst (l : List Flt) : Except PyErr ℕ :=
  match l with
  | [] => .error (.valueError "max arg is an empty sequence")
  | x :: xs => .ok (argmaxAux xs x 0 1).1

/-- `DesignVariable` (src/optimizer.py): one scalar dimension of the search
space. -/
structure DesignVariable where
  name : String
  minimum : ℚ
  maximum : ℚ
  default : ℚ
deriving DecidableEq, Repr

/-- `DesignVariable.sample`: `random.uniform(self.minimum, self.maximum)`. -/
def DesignVariable.sample (v : DesignVariable) (r : Rng) : ℚ × Rng :=
  pyUniform v.minimum v.maximum r

/-- `DesignVariable.clamp`: `max(self.minimum, min(self.maximum, value))`. -/
def DesignVariable.clamp (v : DesignVariable) (value : ℚ) : ℚ :=
  max v.minimum (min v.maximum value)

/-- `OptimizerConfig` (src/optimizer.py); the `history_csv` path is not
modelled (the ledger file itself is, see `LedgerFile`). -/
structure OptimizerConfig where
  population_size : ℕ
  generations : ℕ
  crossover_rate : ℚ
  mutation_rate : ℚ
  mutation_sigma : ℚ
  tournament_size : ℕ
  elitism : ℕ
  objective : String
  target_cl : ℚ
deriving DecidableEq, Repr

/-- The slice of `GeometryConfig` (src/model_generator.py) that the optimizer
can observe: reference quantities used by `_derive_metadata`, and whether
"su2" is among the configured output formats (which decides whether
`generate_geometry` returns a mesh path). -/
structure GeometryConfig where
  reference_area : ℚ
  reference_span : ℚ
  su2Enabled : Bool
deriving DecidableEq, Repr

/-- `ModelArtifacts` (src/model_generator.py), restricted to what the
optimizer observes: the uuid-derived `design_id`, whether `mesh_path` is
present, and the derived metadata. -/
structure ModelArtifacts where
  design_id : String
  meshAvailable : Bool
  metadata : Dict
deriving DecidableEq, Repr

/-- `VSPModelGenerator._derive_metadata`: a copy of the design variables plus
`aspect_ratio` and `wing_area`. -/
def deriveMetadata (g : GeometryConfig) (design_variables : Dict) : Dict :=
  let metadata := dictUpdate [] design_variables
  let metadata := dset metadata "aspect_ratio"
    (((dget design_variables "wing_span").getD g.reference_span) ^ 2 / g.reference_area)
  dset metadata "wing_area" g.reference_area

/-- One record of `self._history` / one data row of the ledger CSV
(`src/optimizer.py`, `_evaluate`): the fixed keys of the record dict are
fields; the `{**individual, **geometry.metadata}` tail is `entries`. -/
structure HistoryRecord where
  generation : ℕ
  design_id : String
  cl : ℚ
  cd : ℚ
  cl_cd : Flt
  entries : Dict
deriving DecidableEq, Repr

/-- `record.keys()`: the CSV fieldnames derived from a record. -/
def recordFieldnames (r : HistoryRecord) : List String :=
  ["generation", "design_id", "cl", "cd", "cl_cd"] ++ r.entries.map Prod.fst

/-- One line of the ledger CSV file: a header line or a data row. -/
inductive LedgerLine where
  | headerLine : List String → LedgerLine
  | row : HistoryRecord → LedgerLine
deriving DecidableEq, Repr

/-- Whether a ledger line is a header line. -/
def LedgerLine.isHeader : LedgerLine → Bool
  | .headerLine _ => true
  | .row _ => false

/-- The ledger CSV file on disk: whether it exists, and its lines in order. -/
structure LedgerFile where
  fileExists : Bool
  lines : List LedgerLine
deriving DecidableEq, Repr

/-- A ledger target that does not exist yet. -/
def LedgerFile.empty : LedgerFile := { fileExists := false, lines := [] }

/-- Number of header lines ever written to the file. -/
def LedgerFile.headerCount (f : LedgerFile) : ℕ :=
  f.lines.countP LedgerLine.isHeader

/-- `GeneticOptimizer._append_history`: the header is written only when the
file does not exist yet; opening with mode "a" creates the file; the record
is then appended. -/
def _append_history (f : LedgerFile) (record : HistoryRecord) : LedgerFile :=
  let write_header := !f.fileExists
  { fileExists := true
    lines := f.lines ++
      (if write_header then [LedgerLine.headerLine (recordFieldnames record)] else []) ++
      [LedgerLine.row record] }

/-- `AerodynamicCoefficients` (src/su2_interface.py). `cl_cd` is the only
field that can be `+infinity` (`cl / cd if cd else float("inf")`). -/
structure AerodynamicCoefficients where
  cl : ℚ
  cd : ℚ
  cm : Option ℚ
  cl_cd : Flt
  metadata : Dict
deriving DecidableEq, Repr

/-- `GeneticOptimizer._objective`: fitness from coefficients, by policy name;
an unrecognized name raises `ValueError` — at the time of each evaluation,
not at startup. -/
def _objective (cfg : OptimizerConfig) (coefficients : AerodynamicCoefficients) :
    Except PyErr Flt :=
  if cfg.objective = "maximize_cl_cd" then .ok coefficients.cl_cd
  else if cfg.objective = "minimize_cd" then .ok (.num (-coefficients.cd))
  else if cfg.objective = "target_cl" then .ok (.num (-|coefficients.cl - cfg.target_cl|))
  else .error (.valueError ("Unsupported objective: " ++ cfg.objective))

/-! ### SU2Interface._parse_results

The two SU2 output files are modelled after csv/string parsing: a history row
carries the already-parsed optional `CL`, `CD`, `CMz` columns; a forces line
is classified by which `startswith` branch of the source it triggers. -/

/-- One row of the SU2 history CSV: optional `CL`, `CD`, `CMz` columns. -/
structure HistRow where
  CL : Option ℚ
  CD : Option ℚ
  CMz : Option ℚ
deriving DecidableEq, Repr

/-- One line of the forces-breakdown file, classified by the `startswith`
tests of `_parse_results`. -/
inductive ForcesLine where
  | clLine : ℚ → ForcesLine
  | cdLine : ℚ → ForcesLine
  | cmzLine : ℚ → ForcesLine
  | otherLine : ForcesLine
deriving DecidableEq, Repr

/-- The history-file loop of `_parse_results`:
`cl = float(row.get("CL", cl or 0.0))` and likewise for `CD`/`CMz`
(`x or 0.0` coincides numerically with `x if x is not None else 0.0`). -/
def parseHistRows : List HistRow → Option ℚ → Option ℚ → Option ℚ →
    Option ℚ × Option ℚ × Option ℚ
  | [], cl, cd, cm => (cl, cd, cm)
  | row :: rest, cl, cd, cm =>
    parseHistRows rest
      (some (row.CL.getD (cl.getD 0)))
      (some (row.CD.getD (cd.getD 0)))
      (some (row.CMz.getD (cm.getD 0)))

/-- The forces-file loop of `_parse_results`. -/
def parseForcesLines : List ForcesLine → Option ℚ → Option ℚ → Option ℚ →
    Option ℚ × Option ℚ × Option ℚ
  | [], cl, cd, cm => (cl, cd, cm)
  | .clLine x :: rest, _, cd, cm => parseForcesLines rest (some x) cd cm
  | .cdLine x :: rest, cl, _, cm => parseForcesLines rest cl (some x) cm
  | .cmzLine x :: rest, cl, cd, _ => parseForcesLines rest cl cd (some x)
  | .otherLine :: rest, cl, cd, cm => parseForcesLines rest cl cd cm

/-- `SU2Interface._parse_results`: reads the history file (when present) and
the forces file (when present); raises `RuntimeError` when `cl` or `cd` was
never found; otherwise `cl_cd = cl / cd if cd else float("inf")`. -/
def _parse_results (history_file : Option (List HistRow))
    (forces_file : Option (List ForcesLine)) : Except PyErr AerodynamicCoefficients :=
  let s0 : Option ℚ × Option ℚ × Option ℚ := (none, none, none)
  let s1 := match history_file with
    | some rows => parseHistRows rows s0.1 s0.2.1 s0.2.2
    | none => s0
  let s2 := match forces_file with
    | some ls => parseForcesLines ls s1.1 s1.2.1 s1.2.2
    | none => s1
  match s2.1, s2.2.1 with
  | some cl, some cd =>
    .ok { cl := cl, cd := cd, cm := s2.2.2
          cl_cd := if cd = 0 then .posInf else .num (cl / cd)
          metadata := [] }
  | _, _ => .error (.runtimeError "cannot parse aerodynamic coefficients from SU2 output")

/-! ### GeneticOptimizer -/

/-- The mutable state a run threads along: the seeded `random` module, the
(unseeded) uuid draw stream with its cursor, a count of `evaluate_design`
invocations (to observe whether an evaluation ever ran), the in-memory
`self._history`, and the ledger CSV file.  Python object state survives a
raised exception, so every operation returns the state even on `error`. -/
structure RunState where
  rng : Rng
  uuids : ℕ → String
  uuidFresh : ℕ
  solverCalls : ℕ
  history : List HistoryRecord
  ledgerFile : LedgerFile

/-- The evaluator boundary: `SU2Interface.evaluate_design`, abstracted as a
function from the merged evaluation parameters to coefficients or a typed
failure (timeout / process failure / parse failure).  Claims about stub
evaluators instantiate this. -/
abbrev Solver := Dict → Except PyErr AerodynamicCoefficients

/-- `VSPModelGenerator.generate_geometry`, restricted to what the optimizer
observes: `design_id = uuid.uuid4().hex[:8]` (one uuid draw — NOT from the
seeded `random` module), the derived metadata, and whether a mesh was
exported.  The OpenVSP calls are external side effects with no feedback into
the optimizer. -/
def generate_geometry (g : GeometryConfig) (design_variables : Dict) (st : RunState) :
    ModelArtifacts × RunState :=
  let design_id := st.uuids st.uuidFresh
  ({ design_id := design_id
     meshAvailable := g.su2Enabled
     metadata := deriveMetadata g design_variables },
   { st with uuidFresh := st.uuidFresh + 1 })

/-- The merged `eval_parameters = {**individual, **geometry.metadata}` of
`GeneticOptimizer._evaluate`. -/
def evalParams (g : GeometryConfig) (individual : Dict) : Dict :=
  dictUpdate individual (deriveMetadata g individual)

/-- `GeneticOptimizer._evaluate`: generate geometry, require a mesh, run the
solver, derive the objective, then append the record to `self._history` and
to the CSV.  A solver failure or an unknown objective raises before the
record is appended, so a failed individual leaves no ledger entry. -/
def _evaluate (cfg : OptimizerConfig) (g : GeometryConfig) (solver : Solver)
    (individual : Dict) (st : RunState) : Except PyErr (Flt × AerodynamicCoefficients) × RunState :=
  let (geometry, st1) := generate_geometry g individual st
  if !geometry.meshAvailable then
    (.error (.runtimeError "SU2 requires an exported mesh; enable the su2 format"), st1)
  else
    let st2 := { st1 with solverCalls := st1.solverCalls + 1 }
    match solver (dictUpdate individual geometry.metadata) with
    | .error e => (.error e, st2)
    | .ok coefficients =>
      match _objective cfg coefficients with
      | .error e => (.error e, st2)
      | .ok score =>
        let record : HistoryRecord :=
          { generation := st2.history.length / cfg.population_size + 1
            design_id := geometry.design_id
            cl := coefficients.cl
            cd := coefficients.cd
            cl_cd := coefficients.cl_cd
            entries := dictUpdate individual geometry.metadata }
        let st3 := { st2 with
          history := st2.history ++ [record]
          ledgerFile := _append_history st2.ledgerFile record }
        (.ok (score, coefficients), st3)

/-- `[self._evaluate(individual) for individual in population]`: sequential,
the first raised exception propagates and later individuals are not
evaluated. -/
def evalPopulation (cfg : OptimizerConfig) (g : GeometryConfig) (solver : Solver) :
    List Dict → RunState → Except PyErr (List (Flt × AerodynamicCoefficients)) × RunState
  | [], st => (.ok [], st)
  | individual :: rest, st =>
    match _evaluate cfg g solver individual st with
    | (.error e, st') => (.error e, st')
    | (.ok sc, st') =>
      match evalPopulation cfg g solver rest st' with
      | (.error e, st'') => (.error e, st'')
      | (.ok scs, st'') => (.ok (sc :: scs), st'')

/-- `GeneticOptimizer._random_individual`: one sample per design variable, in
variable order. -/
def _random_individual (vars : List DesignVariable) (r : Rng) : Dict × Rng :=
  match vars with
  | [] => ([], r)
  | v :: vs =>
    let (x, r') := v.sample r
    let (d, r'') := _random_individual vs r'
    ((v.name, x) :: d, r'')

/-- The initial population of `optimise`:
`[self._random_individual() for _ in range(population_size)]`. -/
def initPopulation (vars : List DesignVariable) : ℕ → Rng → List Dict × Rng
  | 0, r => ([], r)
  | n + 1, r =>
    let (individual, r') := _random_individual vars r
    let (rest, r'') := initPopulation vars n r'
    (individual :: rest, r'')

/-- Stable insertion step for a descending sort: `y` stays ahead of `x` only
when its key is strictly greater, so equal keys keep their original order —
the semantics of Python's stable `sorted(..., reverse=True)`. -/
def insertDesc {α : Type} (key : α → Flt) (x : α) : List α → List α
  | [] => [x]
  | y :: ys => if Flt.blt (key x) (key y) then y :: insertDesc key x ys else x :: y :: ys

/-- Python's `sorted(l, key=key, reverse=True)`: stable, descending. -/
def pySortDesc {α : Type} (key : α → Flt) : List α → List α
  | [] => []
  | x :: xs => insertDesc key x (pySortDesc key xs)

/-- `GeneticOptimizer._elitism`: rank `(individual, fitness)` pairs by score,
descending with ties broken by evaluation order (stable sort), and keep the
first `elitism` individuals. -/
def _elitism (cfg : OptimizerConfig) (population : List Dict)
    (fitness : List (Flt × AerodynamicCoefficients)) : List Dict :=
  let ranked := pySortDesc (fun item => item.2.1) (population.zip fitness)
  (ranked.take cfg.elitism).map Prod.fst

/-- `GeneticOptimizer._select`: tournament selection.
`random.sample` raises when `tournament_size` exceeds the population;
`max` over an empty participant list raises `ValueError`. -/
def _select (cfg : OptimizerConfig) (population : List Dict)
    (fitness : List (Flt × AerodynamicCoefficients)) (r : Rng) :
    Except PyErr Dict × Rng :=
  match pySample population.length cfg.tournament_size r with
  | (.error e, r') => (.error e, r')
  | (.ok participants, r') =>
    match pyMaxBy (fun idx => (pyIndex fitness idx).map Prod.fst) participants with
    | .error e => (.error e, r')
    | .ok best_idx =>
      match pyIndex population best_idx with
      | .error e => (.error e, r')
      | .ok best => (.ok best, r')

/-- The dict comprehension of `_crossover`:
`{name: (parent_a if idx < pivot else parent_b)[name] for idx, name in enumerate(names)}`. -/
def crossGenes (pa pb : Dict) (pivot : ℤ) : List String → ℕ → Except PyErr Dict
  | [], _ => .ok []
  | name :: names, idx =>
    match dgetE (if (idx : ℤ) < pivot then pa else pb) name with
    | .error e => .error e
    | .ok v =>
      match crossGenes pa pb pivot names (idx + 1) with
      | .error e => .error e
      | .ok d => .ok ((name, v) :: d)

/-- `GeneticOptimizer._crossover`: with probability `crossover_rate` do
single-point crossover at `pivot = random.randint(1, len(variables) - 1)` —
which raises `ValueError` when there are fewer than two variables — else
return copies of the parents. -/
def _crossover (cfg : OptimizerConfig) (vars : List DesignVariable)
    (parent_a parent_b : Dict) (r : Rng) : Except PyErr (Dict × Dict) × Rng :=
  let (u, r1) := nextUnit r
  if u > cfg.crossover_rate then (.ok (parent_a, parent_b), r1)
  else
    match pyRandint 1 ((vars.length : ℤ) - 1) r1 with
    | (.error e, r2) => (.error e, r2)
    | (.ok pivot, r2) =>
      let names := vars.map DesignVariable.name
      match crossGenes parent_a parent_b pivot names 0 with
      | .error e => (.error e, r2)
      | .ok child_a =>
        match crossGenes parent_b parent_a pivot names 0 with
        | .error e => (.error e, r2)
        | .ok child_b => (.ok (child_a, child_b), r2)

/-- The per-variable loop of `_mutate`: with probability `mutation_rate`, add
`random.gauss(0, mutation_sigma * (maximum - minimum))` and clamp. -/
def mutateGenes (cfg : OptimizerConfig) : List DesignVariable → Dict → Rng →
    Except PyErr Dict × Rng
  | [], d, r => (.ok d, r)
  | v :: vs, d, r =>
    let (u, r1) := nextUnit r
    if u < cfg.mutation_rate then
      let (z, r2) := nextGauss r1
      let delta := cfg.mutation_sigma * (v.maximum - v.minimum) * z
      match dgetE d v.name with
      | .error e => (.error e, r2)
      | .ok x => mutateGenes cfg vs (dset d v.name (v.clamp (x + delta))) r2
    else mutateGenes cfg vs d r1

/-- `GeneticOptimizer._mutate` (`mutated = individual.copy()` then the
per-variable loop). -/
def _mutate (cfg : OptimizerConfig) (vars : List DesignVariable)
    (individual : Dict) (r : Rng) : Except PyErr Dict × Rng :=
  mutateGenes cfg vars individual r

/-- The body of one iteration of the offspring `while` loop of `optimise`:
select two parents, cross them over, mutate both children, and extend the
next population with both (`next_population.extend([child_a, child_b])`). -/
def offspringStep (cfg : OptimizerConfig) (vars : List DesignVariable)
    (population : List Dict) (fitness : List (Flt × AerodynamicCoefficients))
    (next : List Dict) (r : Rng) : Except PyErr (List Dict) × Rng :=
  match _select cfg population fitness r with
  | (.error e, r1) => (.error e, r1)
  | (.ok parent_a, r1) =>
    match _select cfg population fitness r1 with
    | (.error e, r2) => (.error e, r2)
    | (.ok parent_b, r2) =>
      match _crossover cfg vars parent_a parent_b r2 with
      | (.error e, r3) => (.error e, r3)
      | (.ok (child_a, child_b), r3) =>
        match _mutate cfg vars child_a r3 with
        | (.error e, r4) => (.error e, r4)
        | (.ok child_a', r4) =>
          match _mutate cfg vars child_b r4 with
          | (.error e, r5) => (.error e, r5)
          | (.ok child_b', r5) => (.ok (next ++ [child_a', child_b']), r5)

/-- `while len(next_population) < population_size: ...`, with an explicit
fuel argument to keep the recursion structural.  Each iteration appends
exactly two offspring, so the loop runs at most
`⌈population_size / 2⌉ ≤ population_size` times; the wrapper `fillNext` hands
in `population_size` fuel, which is never exhausted
(see `fillNextAux_length` — the `fuel = 0` branch is unreachable from the
wrapper). -/
def fillNextAux (cfg : OptimizerConfig) (vars : List DesignVariable)
    (population : List Dict) (fitness : List (Flt × AerodynamicCoefficients)) :
    ℕ → List Dict → Rng → Except PyErr (List Dict) × Rng
  | 0, next, r => (.ok next, r)
  | fuel + 1, next, r =>
    if next.length < cfg.population_size then
      match offspringStep cfg vars population fitness next r with
      | (.error e, r') => (.error e, r')
      | (.ok next', r') => fillNextAux cfg vars population fitness fuel next' r'
    else (.ok next, r)

/-- The full offspring loop, started from the elites. -/
def fillNext (cfg : OptimizerConfig) (vars : List DesignVariable)
    (population : List Dict) (fitness : List (Flt × AerodynamicCoefficients))
    (next : List Dict) (r : Rng) : Except PyErr (List Dict) × Rng :=
  fillNextAux cfg vars population fitness cfg.population_size next r

/-- One iteration of the `for generation in range(self.config.generations)`
loop of `optimise` (`genIdx` counts from 0): elitism, offspring loop,
truncation to `population_size`, re-evaluation of the new population, and the
logging `max(...)` over this generation's history entries — which raises
`ValueError` when the generation produced no entries. -/
def generationStep (cfg : OptimizerConfig) (vars : List DesignVariable)
    (g : GeometryConfig) (solver : Solver) (genIdx : ℕ) (population : List Dict)
    (fitness : List (Flt × AerodynamicCoefficients)) (st : RunState) :
    Except PyErr (List Dict × List (Flt × AerodynamicCoefficients)) × RunState :=
  let next_population := _elitism cfg population fitness
  match fillNext cfg vars population fitness next_population st.rng with
  | (.error e, r) => (.error e, { st with rng := r })
  | (.ok filled, r) =>
    let population' := filled.take cfg.population_size
    match evalPopulation cfg g solver population' { st with rng := r } with
    | (.error e, st') => (.error e, st')
    | (.ok fitness', st') =>
      if (st'.history.filter (fun rec0 => rec0.generation = genIdx + 1)).isEmpty then
        (.error (.valueError "max arg is an empty sequence"), st')
      else
        (.ok (population', fitness'), st')

/-- The generation loop of `optimise`, by remaining iteration count. -/
def runLoop (cfg : OptimizerConfig) (vars : List DesignVariable)
    (g : GeometryConfig) (solver : Solver) :
    ℕ → ℕ → List Dict → List (Flt × AerodynamicCoefficients) → RunState →
    Except PyErr (List Dict × List (Flt × AerodynamicCoefficients)) × RunState
  | 0, _, population, fitness, st => (.ok (population, fitness), st)
  | n + 1, genIdx, population, fitness, st =>
    match generationStep cfg vars g solver genIdx population fitness st with
    | (.error e, st') => (.error e, st')
    | (.ok (population', fitness'), st') =>
      runLoop cfg vars g solver n (genIdx + 1) population' fitness' st'

/-- `GeneticOptimizer.optimise`: initial random population, initial fitness
evaluation, `generations` loop iterations, then
`best_index = max(range(len(fitness)), key=lambda idx: fitness[idx][0])`
over the FINAL generation's fitness list, returning
`(population[best_index], fitness[best_index][1])`. -/
def optimise (cfg : OptimizerConfig) (vars : List DesignVariable)
    (g : GeometryConfig) (solver : Solver) (st : RunState) :
    Except PyErr (Dict × AerodynamicCoefficients) × RunState :=
  let (population, r1) := initPopulation vars cfg.population_size st.rng
  let st1 := { st with rng := r1 }
  match evalPopulation cfg g solver population st1 with
  | (.error e, st2) => (.error e, st2)
  | (.ok fitness, st2) =>
    match runLoop cfg vars g solver cfg.generations 0 population fitness st2 with
    | (.error e, st3) => (.error e, st3)
    | (.ok (population', fitness'), st3) =>
      match argmaxFirst (fitness'.map Prod.fst) with
      | .error e => (.error e, st3)
      | .ok best_index =>
        match pyIndex population' best_index with
        | .error e => (.error e, st3)
        | .ok best_individual =>
          match pyIndex fitness' best_index with
          | .error e => (.error e, st3)
          | .ok best => (.ok (best_individual, best.2), st3)

/-! ### create_optimizer (src/main.py)

`create_optimizer` builds `DesignVariable`s and an `OptimizerConfig` from the
YAML mapping and instantiates `GeneticOptimizer`.  It performs NO validation:
no bounds check, no objective-policy check, no `tournament_size` or `elitism`
range check. -/

/-- The `optimizer:` section of the YAML configuration, after `yaml.safe_load`:
`tournament_size`, `elitism`, `objective` and `target_cl` are optional with
the defaults that `create_optimizer` supplies via `.get`. -/
structure RawOptimizerSettings where
  population_size : ℕ
  generations : ℕ
  crossover_rate : ℚ
  mutation_rate : ℚ
  mutation_sigma : ℚ
  tournament_size : Option ℕ
  elitism : Option ℕ
  objective : Option String
  target_cl : Option ℚ
deriving DecidableEq, Repr

/-- `create_optimizer`'s construction of `OptimizerConfig`: a total function —
every configuration, however nonsensical, is accepted at startup. -/
def create_optimizer (opt_cfg : RawOptimizerSettings) : OptimizerConfig :=
  { population_size := opt_cfg.population_size
    generations := opt_cfg.generations
    crossover_rate := opt_cfg.crossover_rate
    mutation_rate := opt_cfg.mutation_rate
    mutation_sigma := opt_cfg.mutation_sigma
    tournament_size := opt_cfg.tournament_size.getD 3
    elitism := opt_cfg.elitism.getD 1
    objective := opt_cfg.objective.getD "maximize_cl_cd"
    target_cl := opt_cfg.target_cl.getD (7 / 10) }

/-! ### Concrete run fixtures

Small concrete configurations, streams and stub evaluators used by the
counterexamples and witnesses below.  The design-variable set and the
`population_size = 4`, `generations = 1`, `elitism = 1` scenario follow the
spec's own example scenario (§8). -/

/-- Geometry fixture: reference area 0.6, reference span 3.5, su2 export on. -/
def geomFix : GeometryConfig :=
  { reference_area := 6 / 10, reference_span := 35 / 10, su2Enabled := true }

/-- Design variables `x, y ∈ [0, 10]` of the spec's example scenario. -/
def varsXY : List DesignVariable :=
  [{ name := "x", minimum := 0, maximum := 10, default := 0 },
   { name := "y", minimum := 0, maximum := 10, default := 0 }]

/-- Single design variable `x ∈ [0, 10]` (for the crossover arity claim). -/
def varsX : List DesignVariable :=
  [{ name := "x", minimum := 0, maximum := 10, default := 0 }]

/-- Deterministic stub evaluator with `objective = x + y` (reported through
`cl_cd`, so the `maximize_cl_cd` policy scores it): the spec's §8 stub. -/
def sumSolver : Solver := fun params =>
  match dget params "x", dget params "y" with
  | some x, some y =>
    .ok { cl := x + y, cd := 1, cm := none, cl_cd := .num (x + y), metadata := [] }
  | _, _ => .error (.runtimeError "stub: missing design variable")

/-- Deterministic stub evaluator scoring `x` alone. -/
def xSolver : Solver := fun params =>
  match dget params "x" with
  | some x => .ok { cl := x, cd := 1, cm := none, cl_cd := .num x, metadata := [] }
  | none => .error (.runtimeError "stub: missing design variable")

/-- Stub evaluator that times out exactly on `x = 3`. -/
def timeoutOn3Solver : Solver := fun params =>
  match dget params "x" with
  | some x =>
    if x = 3 then .error (.timeoutError "SU2 timed out")
    else .ok { cl := x, cd := 1, cm := none, cl_cd := .num x, metadata := [] }
  | none => .error (.runtimeError "stub: missing design variable")

/-- A unit-draw stream from a finite list, padded with `3/4`. -/
def unitsOf (l : List ℚ) : ℕ → ℚ := fun n => l.getD n (3 / 4)

/-- An all-zero integer-draw stream. -/
def intsZero : ℕ → ℕ := fun _ => 0

/-- A zero gauss stream (mutations add nothing). -/
def gaussZero : ℕ → ℚ := fun _ => 0

/-- A uuid stream tagged by a letter. -/
def uuidsTag (tag : String) : ℕ → String := fun n => tag ++ toString n

/-- Initial run state from the three random streams and a uuid stream, with
empty in-memory history and a not-yet-existing ledger file: the state
`main()` hands to a fresh `GeneticOptimizer` run. -/
def mkState (units gaussv : ℕ → ℚ) (ints : ℕ → ℕ) (uuids : ℕ → String) : RunState :=
  { rng := { units := units, gaussv := gaussv, ints := ints, uPos := 0, gPos := 0, iPos := 0 }
    uuids := uuids
    uuidFresh := 0
    solverCalls := 0
    history := []
    ledgerFile := LedgerFile.empty }

/-- The spec's §8 example configuration: `population_size = 4`,
`generations = 1`, `elitism = 1` (tournament 2, crossover rate 1/2, no
mutation). -/
def cfgSpec8 : OptimizerConfig :=
  { population_size := 4, generations := 1, crossover_rate := 1 / 2
    mutation_rate := 0, mutation_sigma := 1 / 10, tournament_size := 2
    elitism := 1, objective := "maximize_cl_cd", target_cl := 7 / 10 }

/-- Unit draws for the §8 scenario: the 8 initial samples give individuals
`(1,2), (3,4), (5,6), (7,8)`; every later draw is `3/4` (crossover skipped,
mutation never fires). -/
def unitsSpec8 : ℕ → ℚ :=
  unitsOf [1/100*10, 2/10, 3/10, 4/10, 5/10, 6/10, 7/10, 8/10]

/-- The §8 run. -/
def runSpec8 : Except PyErr (Dict × AerodynamicCoefficients) × RunState :=
  optimise cfgSpec8 varsXY geomFix sumSolver
    (mkState unitsSpec8 gaussZero intsZero (uuidsTag "a"))

/-- A second run of the spec's §8 scenario with the same seed (same `random`
streams) but different uuid4 draws — the situation of two process runs with a
fixed `random_seed`, since `uuid.uuid4` does not read the seeded generator. -/
def runSpec8b : Except PyErr (Dict × AerodynamicCoefficients) × RunState :=
  optimise cfgSpec8 varsXY geomFix sumSolver
    (mkState unitsSpec8 gaussZero intsZero (uuidsTag "b"))

/-- Configuration for the fitness-regression run (claim C1): no elitism, sure
mutation. -/
def cfgRegress : OptimizerConfig :=
  { population_size := 2, generations := 1, crossover_rate := 0
    mutation_rate := 1, mutation_sigma := 1, tournament_size := 1
    elitism := 0, objective := "maximize_cl_cd", target_cl := 7 / 10 }

/-- Gauss draws that pull both offspring genes down: `-9/10`, `-8/10`. -/
def gaussRegress : ℕ → ℚ := fun n => if n = 0 then -9/10 else -8/10

/-- A run whose fitness regresses: generation 1 holds `x = 9` (objective 9),
the final generation only `x = 0` and `x = 1`. -/
def runRegress : Except PyErr (Dict × AerodynamicCoefficients) × RunState :=
  optimise cfgRegress varsX geomFix xSolver
    (mkState (unitsOf [9/10, 1/10]) gaussRegress intsZero (uuidsTag "r"))

/-- Configuration for the failure-isolation run (claim C2). -/
def cfgIsolation : OptimizerConfig :=
  { population_size := 3, generations := 1, crossover_rate := 0
    mutation_rate := 0, mutation_sigma := 1 / 10, tournament_size := 1
    elitism := 0, objective := "maximize_cl_cd", target_cl := 7 / 10 }

/-- A run in which the evaluator times out on the second of three individuals
(`x = 9`, then `x = 3` — the timeout — then `x = 5`). -/
def runIsolation : Except PyErr (Dict × AerodynamicCoefficients) × RunState :=
  optimise cfgIsolation varsX geomFix timeoutOn3Solver
    (mkState (unitsOf [9/10, 3/10, 5/10]) gaussZero intsZero (uuidsTag "t"))

/-- §7 startup-validation scenarios (claim C5): raw settings with an unknown
objective policy name. -/
def rawBadObjective : RawOptimizerSettings :=
  { population_size := 1, generations := 1, crossover_rate := 0
    mutation_rate := 0, mutation_sigma := 1 / 10, tournament_size := some 1
    elitism := some 0, objective := some "maximise", target_cl := none }

/-- Run under the unknown objective policy. -/
def runBadObjective : Except PyErr (Dict × AerodynamicCoefficients) × RunState :=
  optimise (create_optimizer rawBadObjective) varsX geomFix xSolver
    (mkState (unitsOf [1/10]) gaussZero intsZero (uuidsTag "o"))

/-- Raw settings with `tournament_size = 5` against `population_size = 2`. -/
def rawBadTournament : RawOptimizerSettings :=
  { population_size := 2, generations := 1, crossover_rate := 0
    mutation_rate := 0, mutation_sigma := 1 / 10, tournament_size := some 5
    elitism := some 0, objective := none, target_cl := none }

/-- Run under the oversized tournament. -/
def runBadTournament : Except PyErr (Dict × AerodynamicCoefficients) × RunState :=
  optimise (create_optimizer rawBadTournament) varsX geomFix xSolver
    (mkState (unitsOf [1/10, 2/10]) gaussZero intsZero (uuidsTag "s"))

/-- Raw settings with `elitism = 5` against `population_size = 2`. -/
def rawBadElitism : RawOptimizerSettings :=
  { population_size := 2, generations := 1, crossover_rate := 0
    mutation_rate := 0, mutation_sigma := 1 / 10, tournament_size := some 1
    elitism := some 5, objective := none, target_cl := none }

/-- Run under the oversized elitism. -/
def runBadElitism : Except PyErr (Dict × AerodynamicCoefficients) × RunState :=
  optimise (create_optimizer rawBadElitism) varsX geomFix xSolver
    (mkState (unitsOf [1/10, 2/10]) gaussZero intsZero (uuidsTag "e"))

/-- A design variable with inverted bounds (`minimum > maximum`). -/
def varsInverted : List DesignVariable :=
  [{ name := "x", minimum := 10, maximum := 0, default := 0 }]

/-- Raw settings used with the inverted-bounds variable. -/
def rawInverted : RawOptimizerSettings :=
  { population_size := 1, generations := 1, crossover_rate := 0
    mutation_rate := 0, mutation_sigma := 1 / 10, tournament_size := some 1
    elitism := some 0, objective := none, target_cl := none }

/-- Run over the inverted-bounds variable set. -/
def runInverted : Except PyErr (Dict × AerodynamicCoefficients) × RunState :=
  optimise (create_optimizer rawInverted) varsInverted geomFix xSolver
    (mkState (unitsOf [1/10]) gaussZero intsZero (uuidsTag "i"))

/-- Configuration for the two-process ledger scenario (claim C7):
`population_size = 1`, `generations = 1`. -/
def cfgLedger : OptimizerConfig :=
  { population_size := 1, generations := 1, crossover_rate := 0
    mutation_rate := 0, mutation_sigma := 1 / 10, tournament_size := 1
    elitism := 0, objective := "maximize_cl_cd", target_cl := 7 / 10 }

/-- First process run against a fresh ledger target. -/
def runLedger1 : Except PyErr (Dict × AerodynamicCoefficients) × RunState :=
  optimise cfgLedger varsX geomFix xSolver
    (mkState (unitsOf [2/10]) gaussZero intsZero (uuidsTag "p"))

/-- Second process run: a fresh `GeneticOptimizer` (empty in-memory
`_history`) reopening the SAME ledger file. -/
def runLedger2 : Except PyErr (Dict × AerodynamicCoefficients) × RunState :=
  optimise cfgLedger varsX geomFix xSolver
    { mkState (unitsOf [4/10]) gaussZero intsZero (uuidsTag "q") with
        ledgerFile := runLedger1.2.ledgerFile }

/-- Coefficients of the `sumSolver`-style stubs at objective value `q`. -/
def coefOf (q : ℚ) : AerodynamicCoefficients :=
  { cl := q, cd := 1, cm := none, cl_cd := .num q, metadata := [] }

/-- A concrete population with a fitness tie (claims C8/C9 witnesses). -/
def popTie : List Dict :=
  [[("x", 0), ("y", 0)], [("x", 1), ("y", 1)], [("x", 2), ("y", 2)], [("x", 3), ("y", 3)]]

/-- Fitness of `popTie`: scores 5, 7, 7, 3 — indices 1 and 2 tie at the top. -/
def fitTie : List (Flt × AerodynamicCoefficients) :=
  [(.num 5, coefOf 5), (.num 7, coefOf 7), (.num 7, coefOf 7), (.num 3, coefOf 3)]

/-- Elitism-2 configuration for the tie scenario. -/
def cfgTie : OptimizerConfig :=
  { population_size := 4, generations := 1, crossover_rate := 1 / 2
    mutation_rate := 0, mutation_sigma := 1 / 10, tournament_size := 2
    elitism := 2, objective := "maximize_cl_cd", target_cl := 7 / 10 }

/-- Fresh state for the tie scenario (all unit draws `3/4`). -/
def stTie : RunState := mkState (unitsOf []) gaussZero intsZero (uuidsTag "w")

/-- The next generation the tie scenario produces: the two tied elites (ties
broken towards the earlier index) as a prefix, then two tournament
offspring. -/
def nextTie : List Dict × List (Flt × AerodynamicCoefficients) :=
  ([[("x", 1), ("y", 1)], [("x", 2), ("y", 2)], [("x", 1), ("y", 1)], [("x", 1), ("y", 1)]],
   [(.num 2, coefOf 2), (.num 4, coefOf 4), (.num 2, coefOf 2), (.num 2, coefOf 2)])

/-- Configuration whose crossover always fires (claim C10). -/
def cfgCross1 : OptimizerConfig :=
  { population_size := 2, generations := 1, crossover_rate := 1
    mutation_rate := 0, mutation_sigma := 1 / 10, tournament_size := 1
    elitism := 0, objective := "maximize_cl_cd", target_cl := 7 / 10 }

/-- A run over a single design variable with `crossover_rate = 1`: the first
crossover hits `random.randint(1, 0)`. -/
def runCross1 : Except PyErr (Dict × AerodynamicCoefficients) × RunState :=
  optimise cfgCross1 varsX geomFix xSolver
    (mkState (unitsOf [1/10, 2/10]) gaussZero intsZero (uuidsTag "c"))

/-! ### Spec-side predicates and observation helpers -/

/-- Erase the uuid-derived `design_id` of a ledger record (to compare ledgers
up to uuid draws). -/
def stripRec (r : HistoryRecord) : HistoryRecord := { r with design_id := "" }

/-- Erase the `design_id` of a data row; header lines are kept as they are
(the fieldname list does not depend on uuid draws). -/
def stripLine : LedgerLine → LedgerLine
  | .headerLine h => .headerLine h
  | .row r => .row (stripRec r)

/-- Two run states that agree on everything the seeded `random` module
determines: they may differ only in the uuid stream and in the `design_id`
fields derived from it. -/
def SameModId (s t : RunState) : Prop :=
  s.rng = t.rng ∧ s.uuidFresh = t.uuidFresh ∧ s.solverCalls = t.solverCalls ∧
  s.history.map stripRec = t.history.map stripRec ∧
  s.ledgerFile.fileExists = t.ledgerFile.fileExists ∧
  s.ledgerFile.lines.map stripLine = t.ledgerFile.lines.map stripLine

/-- All draws of a unit stream lie in `[0, 1)` — what `random.random`
guarantees. -/
def UnitsOK (f : ℕ → ℚ) : Prop := ∀ n, 0 ≤ f n ∧ f n < 1

/-- The gene of `ind` at `v.name`, when present, lies within `v`'s bounds. -/
def geneOK (ind : Dict) (v : DesignVariable) : Bool :=
  match dget ind v.name with
  | some x => decide (v.minimum ≤ x ∧ x ≤ v.maximum)
  | none => true

/-- Clamping invariant for one individual: every gene lies within the
`[minimum, maximum]` of its design variable. -/
def InBounds (vars : List DesignVariable) (ind : Dict) : Prop :=
  ∀ v ∈ vars, geneOK ind v = true

instance (vars : List DesignVariable) (ind : Dict) : Decidable (InBounds vars ind) := by
  unfold InBounds
  infer_instance

/-- Every history entry is tagged `index / population_size + 1` —
the generation numbering `_evaluate` produces on a fresh optimizer. -/
def TaggedOK (P : ℕ) (h : List HistoryRecord) : Prop :=
  ∀ i r0, h.get? i = some r0 → r0.generation = i / P + 1

/-- Replaying a sequence of `_append_history` calls. -/
def appendAll (f : LedgerFile) (rs : List HistoryRecord) : LedgerFile :=
  rs.foldl _append_history f

/-- The generation tags of the data rows of a ledger file, in file order. -/
def rowGenerations (f : LedgerFile) : List ℕ :=
  f.lines.filterMap fun l =>
    match l with
    | .row r => some r.generation
    | .headerLine _ => none

/-!
## Theorems

General lemmas about the embedded operations first, then one theorem per
specification claim (with counterexamples and witnesses where applicable).
-/

theorem Flt.ble_refl (a : Flt) : Flt.ble a a = true := by
  cases a <;> simp [Flt.ble]

theorem Flt.ble_of_not_blt {a b : Flt} (h : Flt.blt a b = false) : Flt.ble b a = true := by
  cases a <;> cases b <;> simp_all [Flt.blt, Flt.ble]

theorem Flt.ble_trans {a b c : Flt} (h1 : Flt.ble a b = true) (h2 : Flt.ble b c = true) :
    Flt.ble a c = true := by
  cases a <;> cases b <;> cases c <;> simp_all [Flt.ble]
  linarith

theorem Flt.ble_of_blt {a b : Flt} (h : Flt.blt a b = true) : Flt.ble a b = true := by
  cases a <;> cases b <;> simp_all [Flt.blt, Flt.ble]
  linarith

theorem pyIndex_eq_ok {α : Type} {l : List α} {i : ℕ} {x : α} :
    pyIndex l i = .ok x ↔ l.get? i = some x := by
  unfold pyIndex
  cases h : l.get? i <;> simp

theorem dget_dset (d : Dict) (k k' : String) (v : ℚ) :
    dget (dset d k v) k' = if k' = k then some v else dget d k' := by
  induction d with
  | nil =>
    simp only [dset, dget]
    by_cases hk : k = k'
    · subst hk; simp
    · rw [if_neg hk, if_neg fun h => hk h.symm]
  | cons hd tl ih =>
    obtain ⟨k0, v0⟩ := hd
    by_cases h0 : k0 = k
    · subst h0
      simp only [dset, if_pos rfl, dget]
      by_cases hk : k0 = k'
      · subst hk; simp
      · rw [if_neg hk, if_neg fun h => hk h.symm, if_neg hk]
    · simp only [dset, if_neg h0, dget, ih]
      by_cases hk : k0 = k'
      · subst hk
        rw [if_pos rfl, if_neg h0, if_pos rfl]
      · rw [if_neg hk]
        by_cases hkk : k' = k
        · rw [if_pos hkk, if_pos hkk]
        · rw [if_neg hkk, if_neg hkk, if_neg hk]

theorem argmaxAux_spec (l0 : List Flt) (ys : List Flt) :
    ∀ (bk : Flt) (best i : ℕ),
      l0.get? best = some bk →
      (∀ m, ys.get? m = l0.get? (i + m)) →
      (∀ j x, j < i → l0.get? j = some x → Flt.ble x bk = true) →
      i + ys.length = l0.length →
      l0.get? (argmaxAux ys bk best i).1 = some (argmaxAux ys bk best i).2 ∧
      (∀ j x, l0.get? j = some x → Flt.ble x (argmaxAux ys bk best i).2 = true) := by
  induction ys with
  | nil =>
    intro bk best i hbest _ hbound hlen
    simp only [List.length_nil, Nat.add_zero] at hlen
    refine ⟨hbest, fun j x hx => ?_⟩
    have hj : j < l0.length := List.get?_eq_some.mp hx |>.1
    exact hbound j x (by omega) hx
  | cons y ys ih =>
    intro bk best i hbest hstream hbound hlen
    have hy : l0.get? i = some y := by
      have := hstream 0
      simpa using this.symm
    have hstream' : ∀ m, ys.get? m = l0.get? (i + 1 + m) := by
      intro m
      have := hstream (m + 1)
      simpa [Nat.add_assoc, Nat.add_comm 1 m] using this
    have hlen' : i + 1 + ys.length = l0.length := by
      simp at hlen; omega
    simp only [argmaxAux]
    by_cases hblt : Flt.blt bk y = true
    · rw [if_pos hblt]
      refine ih y i (i + 1) hy hstream' ?_ hlen'
      intro j x hj hx
      rcases Nat.lt_succ_iff_lt_or_eq.mp hj with hj' | hj'
      · exact Flt.ble_trans (hbound j x hj' hx) (Flt.ble_of_blt hblt)
      · subst hj'
        rw [hx] at hy
        cases hy
        exact Flt.ble_refl _
    · rw [if_neg hblt]
      refine ih bk best (i + 1) hbest hstream' ?_ hlen'
      intro j x hj hx
      rcases Nat.lt_succ_iff_lt_or_eq.mp hj with hj' | hj'
      · exact hbound j x hj' hx
      · subst hj'
        rw [hx] at hy
        cases hy
        exact Flt.ble_of_not_blt (Bool.not_eq_true _ ▸ hblt)

theorem argmaxFirst_spec {l : List Flt} {i : ℕ} (h : argmaxFirst l = .ok i) :
    ∃ k, l.get? i = some k ∧ ∀ j x, l.get? j = some x → Flt.ble x k = true := by
  match l, h with
  | x :: xs, h =>
    simp only [argmaxFirst] at h
    have hspec := argmaxAux_spec (x :: xs) xs x 0 1 (by simp)
      (fun m => by simp [Nat.add_comm 1 m]) ?_ (by simp [Nat.add_comm])
    · obtain ⟨h1, h2⟩ := hspec
      cases h
      exact ⟨_, h1, h2⟩
    · intro j y hj hy
      interval_cases j
      simp at hy
      subst hy
      exact Flt.ble_refl _

/-- Claim C1 (amended): on a successful run, `optimise` returns a member of
the FINAL generation's population whose fitness is maximal within the final
generation only (first index on ties) — not the globally best individual
across all generations. -/
theorem C1_theorem (cfg : OptimizerConfig) (vars : List DesignVariable)
    (g : GeometryConfig) (solver : Solver) (st : RunState) (best : Dict)
    (coeffs : AerodynamicCoefficients)
    (h : (optimise cfg vars g solver st).1 = .ok (best, coeffs)) :
    ∃ fitness0 st2 pop' fit' st3 i s,
      evalPopulation cfg g solver (initPopulation vars cfg.population_size st.rng).1
          { st with rng := (initPopulation vars cfg.population_size st.rng).2 }
        = (.ok fitness0, st2) ∧
      runLoop cfg vars g solver cfg.generations 0
          (initPopulation vars cfg.population_size st.rng).1 fitness0 st2
        = (.ok (pop', fit'), st3) ∧
      pop'.get? i = some best ∧
      fit'.get? i = some (s, coeffs) ∧
      ∀ j f, fit'.get? j = some f → Flt.ble f.1 s = true := by
  unfold optimise at h
  rcases hini : initPopulation vars cfg.population_size st.rng with ⟨population, r1⟩
  rw [hini] at h
  dsimp only at h
  rcases heval : evalPopulation cfg g solver population { st with rng := r1 } with ⟨res2, st2⟩
  rw [heval] at h
  cases res2 with
  | error e => simp at h
  | ok fitness0 =>
    dsimp only at h
    rcases hloop : runLoop cfg vars g solver cfg.generations 0 population fitness0 st2
      with ⟨res3, st3⟩
    rw [hloop] at h
    cases res3 with
    | error e => simp at h
    | ok pr =>
      rcases pr with ⟨pop', fit'⟩
      dsimp only at h
      cases harg : argmaxFirst (fit'.map Prod.fst) with
      | error e => rw [harg] at h; simp at h
      | ok best_index =>
        rw [harg] at h
        dsimp only at h
        cases hpi : pyIndex pop' best_index with
        | error e => rw [hpi] at h; simp at h
        | ok best_individual =>
          rw [hpi] at h
          dsimp only at h
          cases hfi : pyIndex fit' best_index with
          | error e => rw [hfi] at h; simp at h
          | ok bp =>
            rw [hfi] at h
            simp only [Except.ok.injEq, Prod.mk.injEq] at h
            obtain ⟨hb, hc⟩ := h
            obtain ⟨k, hk, hmax⟩ := argmaxFirst_spec harg
            have hfit : fit'.get? best_index = some bp := pyIndex_eq_ok.mp hfi
            have hkbp : k = bp.1 := by
              rw [List.get?_map, hfit] at hk
              simpa using hk.symm
            refine ⟨fitness0, st2, pop', fit', st3, best_index, bp.1,
              by simpa using heval, by simpa using hloop,
              by rw [← hb]; exact pyIndex_eq_ok.mp hpi, ?_, ?_⟩
            · rw [← hc]
              simpa using hfit
            · intro j f hf
              have := hmax j f.1 (by rw [List.get?_map, hf]; rfl)
              rwa [hkbp] at this

/-- Claim C1 counterexample: in `runRegress`, generation 1 evaluates an
individual with objective 9, but the returned "best" is the final
generation's maximum, with objective 1 < 9 — so `optimise` does not return
the globally best individual across all generations. -/
theorem C1_counterexample :
    runRegress.1.map Prod.fst = .ok [("x", 1)] ∧
    (runRegress.1.map fun p => p.2.cl_cd) = .ok (.num 1) ∧
    runRegress.2.history.map HistoryRecord.cl_cd = [.num 9, .num 1, .num 0, .num 1] ∧
    Flt.blt (.num 1) (.num 9) = true := by
  with_unfolding_all decide

/-- Witness for C1: the amended statement instantiated on the §8 scenario
run. -/
theorem C1_witness :
    ∃ fitness0 st2 pop' fit' st3 i s,
      evalPopulation cfgSpec8 geomFix sumSolver
          (initPopulation varsXY cfgSpec8.population_size
            (mkState unitsSpec8 gaussZero intsZero (uuidsTag "a")).rng).1
          { mkState unitsSpec8 gaussZero intsZero (uuidsTag "a") with
              rng := (initPopulation varsXY cfgSpec8.population_size
                (mkState unitsSpec8 gaussZero intsZero (uuidsTag "a")).rng).2 }
        = (.ok fitness0, st2) ∧
      runLoop cfgSpec8 varsXY geomFix sumSolver cfgSpec8.generations 0
          (initPopulation varsXY cfgSpec8.population_size
            (mkState unitsSpec8 gaussZero intsZero (uuidsTag "a")).rng).1 fitness0 st2
        = (.ok (pop', fit'), st3) ∧
      pop'.get? i = some [("x", 7), ("y", 8)] ∧
      fit'.get? i = some (s, coefOf 15) ∧
      ∀ j f, fit'.get? j = some f → Flt.ble f.1 s = true :=
  C1_theorem cfgSpec8 varsXY geomFix sumSolver
    (mkState unitsSpec8 gaussZero intsZero (uuidsTag "a")) [("x", 7), ("y", 8)] (coefOf 15)
    (by with_unfolding_all decide)

/-- Claim C2 (amended): a per-individual evaluator failure is NOT recovered:
`_evaluate` re-raises it, leaving no history entry and no ledger row for the
failed individual (only the `evaluate_design` call count grows), and
`evalPopulation` stops at the first failing individual, so the rest of the
generation is not evaluated — the exception propagates out of the generation
loop. -/
theorem C2_theorem :
    (∀ (cfg : OptimizerConfig) (g : GeometryConfig) (solver : Solver) (ind : Dict)
       (st : RunState) (e : PyErr),
       g.su2Enabled = true →
       solver (evalParams g ind) = .error e →
       (_evaluate cfg g solver ind st).1 = .error e ∧
       (_evaluate cfg g solver ind st).2.history = st.history ∧
       (_evaluate cfg g solver ind st).2.ledgerFile = st.ledgerFile ∧
       (_evaluate cfg g solver ind st).2.solverCalls = st.solverCalls + 1) ∧
    (∀ (cfg : OptimizerConfig) (g : GeometryConfig) (solver : Solver) (x : Dict)
       (rest : List Dict) (st : RunState) (e : PyErr),
       (_evaluate cfg g solver x st).1 = .error e →
       evalPopulation cfg g solver (x :: rest) st
         = (.error e, (_evaluate cfg g solver x st).2)) := by
  constructor
  · intro cfg g solver ind st e hmesh hsolver
    have hstep : _evaluate cfg g solver ind st =
        (.error e,
          { st with uuidFresh := st.uuidFresh + 1, solverCalls := st.solverCalls + 1 }) := by
      simp only [_evaluate, generate_geometry, hmesh, Bool.not_true, Bool.false_eq_true,
        if_false]
      rw [show solver (dictUpdate ind (deriveMetadata g ind)) = .error e from hsolver]
    rw [hstep]
    exact ⟨rfl, rfl, rfl, rfl⟩
  · intro cfg g solver x rest st e h
    rcases he : _evaluate cfg g solver x st with ⟨res, st'⟩
    rw [he] at h
    simp only at h
    subst h
    simp [evalPopulation, he]

/-- Claim C2 counterexample: in `runIsolation` the timeout on the second of
three individuals aborts the whole run: the run result is the raised
`TimeoutError`, only the first individual is in the history and the ledger
(header plus one row), and the third individual is never evaluated (only two
`evaluate_design` calls happened). -/
theorem C2_counterexample :
    runIsolation.1 = .error (.timeoutError "SU2 timed out") ∧
    runIsolation.2.history.map HistoryRecord.cl = [9] ∧
    runIsolation.2.solverCalls = 2 ∧
    runIsolation.2.ledgerFile.lines.length = 2 := by
  with_unfolding_all decide

/-- Witness for C2: the amended statement instantiated on the timing-out
individual `x = 3` of the isolation scenario. -/
theorem C2_witness :
    ((_evaluate cfgIsolation geomFix timeoutOn3Solver [("x", 3)] stTie).1
        = .error (.timeoutError "SU2 timed out") ∧
     (_evaluate cfgIsolation geomFix timeoutOn3Solver [("x", 3)] stTie).2.history
        = stTie.history ∧
     (_evaluate cfgIsolation geomFix timeoutOn3Solver [("x", 3)] stTie).2.ledgerFile
        = stTie.ledgerFile ∧
     (_evaluate cfgIsolation geomFix timeoutOn3Solver [("x", 3)] stTie).2.solverCalls
        = stTie.solverCalls + 1) ∧
    evalPopulation cfgIsolation geomFix timeoutOn3Solver ([("x", 3)] :: [[("x", 5)]]) stTie
      = (.error (.timeoutError "SU2 timed out"),
         (_evaluate cfgIsolation geomFix timeoutOn3Solver [("x", 3)] stTie).2) :=
  ⟨C2_theorem.1 cfgIsolation geomFix timeoutOn3Solver [("x", 3)] stTie
      (.timeoutError "SU2 timed out") (by with_unfolding_all decide)
      (by with_unfolding_all decide),
   C2_theorem.2 cfgIsolation geomFix timeoutOn3Solver [("x", 3)] [[("x", 5)]] stTie
      (.timeoutError "SU2 timed out") (by with_unfolding_all decide)⟩

/-- Claim C4 counterexample: two runs with the same seed (identical `random`
streams), identical configuration and the same deterministic stub evaluator,
but fresh uuid4 draws, produce DIFFERENT ledgers (in-memory history and CSV
rows differ in `design_id`), even though the returned best is the same. -/
theorem C4_counterexample :
    runSpec8.2.history ≠ runSpec8b.2.history ∧
    runSpec8.2.ledgerFile.lines ≠ runSpec8b.2.ledgerFile.lines ∧
    runSpec8.1 = runSpec8b.1 := by
  with_unfolding_all decide

/-- Claim C5 counterexample: an unknown objective policy name is accepted at
startup (`create_optimizer` simply builds the configuration) and the
`ValueError` is raised only inside the first fitness evaluation — after the
evaluator has already been invoked once (`solverCalls = 1`). -/
theorem C5_counterexample :
    create_optimizer rawBadObjective =
      { population_size := 1, generations := 1, crossover_rate := 0, mutation_rate := 0
        mutation_sigma := 1 / 10, tournament_size := 1, elitism := 0
        objective := "maximise", target_cl := 7 / 10 } ∧
    runBadObjective.1 = .error (.valueError "Unsupported objective: maximise") ∧
    runBadObjective.2.solverCalls = 1 := by
  with_unfolding_all decide

/-- Claim C5 (amended): no configuration validation happens at startup.  An
unknown objective policy raises only during the first evaluation (after the
evaluator ran); an out-of-range `tournament_size` raises only at selection
time, after the whole initial generation was evaluated; `elitism >
population_size` and inverted variable bounds are never flagged at all — those
runs complete normally. -/
theorem C5_theorem :
    (runBadObjective.1 = .error (.valueError "Unsupported objective: maximise") ∧
     runBadObjective.2.solverCalls = 1 ∧ runBadObjective.2.history = []) ∧
    (runBadTournament.1 = .error (.valueError "Sample larger than population or is negative") ∧
     runBadTournament.2.solverCalls = 2) ∧
    runBadElitism.1.map Prod.fst = .ok [("x", 2)] ∧
    runInverted.1.map Prod.fst = .ok [("x", 9)] := by
  with_unfolding_all decide

/-- Claim C6 counterexample: a parsed history row with `CL = 1`, `CD = 0`
makes `_parse_results` SUCCEED with `cl_cd = +infinity` (no
`EvaluationParseFailure`), and the ratio objective then scores `+infinity`. -/
theorem C6_counterexample :
    _parse_results (some [⟨some 1, some 0, none⟩]) none =
      .ok { cl := 1, cd := 0, cm := some 0, cl_cd := .posInf, metadata := [] } ∧
    _objective cfgSpec8 { cl := 1, cd := 0, cm := some 0, cl_cd := .posInf, metadata := [] }
      = .ok .posInf := by
  with_unfolding_all decide

/-- Claim C7 counterexample: a second process run reopening the same ledger
file appends without a second header (that part holds), but its generation
tags restart at 1 — the data rows of the shared file read `1, 2, 1, 2`, a
collision with the first run's generation numbers. -/
theorem C7_counterexample :
    runLedger1.1.map Prod.fst = .ok [("x", 2)] ∧
    runLedger2.1.map Prod.fst = .ok [("x", 4)] ∧
    runLedger2.2.ledgerFile.headerCount = 1 ∧
    rowGenerations runLedger2.2.ledgerFile = [1, 2, 1, 2] := by
  with_unfolding_all decide

theorem parseHistRows_append (l1 l2 : List HistRow) (cl cd cm : Option ℚ) :
    parseHistRows (l1 ++ l2) cl cd cm =
      parseHistRows l2 (parseHistRows l1 cl cd cm).1
        (parseHistRows l1 cl cd cm).2.1 (parseHistRows l1 cl cd cm).2.2 := by
  induction l1 generalizing cl cd cm with
  | nil => simp [parseHistRows]
  | cons row rest ih => simp [parseHistRows, ih]

/-- Claim C6 (amended): when the parsed drag is exactly zero, `_parse_results`
SUCCEEDS — `cl_cd` is set to `+infinity` (`cl / cd if cd else float("inf")`) —
and the `maximize_cl_cd` objective then evaluates to `+infinity`; no
`EvaluationParseFailure` is raised. -/
theorem C6_theorem (pre : List HistRow) (clv : ℚ) (cmv : Option ℚ)
    (cfg' : OptimizerConfig) (hobj : cfg'.objective = "maximize_cl_cd") :
    _parse_results (some (pre ++ [⟨some clv, some 0, cmv⟩])) none =
      .ok { cl := clv, cd := 0
            cm := some (cmv.getD (((parseHistRows pre none none none).2.2).getD 0))
            cl_cd := .posInf, metadata := [] } ∧
    _objective cfg'
      { cl := clv, cd := 0
        cm := some (cmv.getD (((parseHistRows pre none none none).2.2).getD 0))
        cl_cd := .posInf, metadata := [] } = .ok .posInf := by
  constructor
  · simp [_parse_results, parseHistRows_append, parseHistRows]
  · simp [_objective, hobj]

/-- Witness for C6: the zero-drag row `CL = 1, CD = 0` parses successfully
into coefficients with `cl_cd = +infinity`, and the ratio objective returns
`+infinity`. -/
theorem C6_witness :
    _parse_results (some ([] ++ [⟨some 1, some 0, none⟩])) none =
      .ok { cl := 1, cd := 0
            cm := some ((none : Option ℚ).getD (((parseHistRows [] none none none).2.2).getD 0))
            cl_cd := .posInf, metadata := [] } ∧
    _objective cfgSpec8
      { cl := 1, cd := 0
        cm := some ((none : Option ℚ).getD (((parseHistRows [] none none none).2.2).getD 0))
        cl_cd := .posInf, metadata := [] } = .ok .posInf :=
  C6_theorem [] 1 none cfgSpec8 (by with_unfolding_all decide)

theorem crossGenes_total (pa pb : Dict) (piv : ℤ) (names : List String)
    (h : ∀ nm ∈ names, (dget pa nm).isSome ∧ (dget pb nm).isSome) :
    ∀ idx, ∃ d, crossGenes pa pb piv names idx = .ok d := by
  induction names with
  | nil => exact fun idx => ⟨[], rfl⟩
  | cons nm names ih =>
    intro idx
    have h1 := h nm (by simp)
    obtain ⟨d, hd⟩ := ih (fun x hx => h x (by simp [hx])) (idx + 1)
    by_cases hp : ((idx : ℤ) < piv)
    · obtain ⟨x, hx⟩ := Option.isSome_iff_exists.mp h1.1
      exact ⟨(nm, x) :: d, by simp [crossGenes, hp, dgetE, hx, hd]⟩
    · obtain ⟨x, hx⟩ := Option.isSome_iff_exists.mp h1.2
      exact ⟨(nm, x) :: d, by simp [crossGenes, hp, dgetE, hx, hd]⟩

/-- Claim C10: with exactly one design variable, `_crossover` raises
`ValueError` (from `random.randint(1, 0)`) whenever the crossover branch is
taken; with at least two variables (and parents carrying every variable's
gene) it always succeeds; and in a concrete single-variable run with
`crossover_rate = 1` the whole `optimise` run aborts with that
`ValueError`. -/
theorem C10_theorem :
    (∀ (cfg : OptimizerConfig) (vars : List DesignVariable) (pa pb : Dict) (r : Rng),
       vars.length = 1 →
       ¬((nextUnit r).1 > cfg.crossover_rate) →
       (_crossover cfg vars pa pb r).1 = .error (.valueError "empty range for randrange")) ∧
    (∀ (cfg : OptimizerConfig) (vars : List DesignVariable) (pa pb : Dict) (r : Rng),
       2 ≤ vars.length →
       (∀ v ∈ vars, (dget pa v.name).isSome ∧ (dget pb v.name).isSome) →
       ∃ ch, (_crossover cfg vars pa pb r).1 = .ok ch) ∧
    runCross1.1 = .error (.valueError "empty range for randrange") := by
  refine ⟨?_, ?_, by with_unfolding_all decide⟩
  · intro cfg vars pa pb r hlen hu
    simp only [_crossover, if_neg hu, hlen, pyRandint]
    norm_num
  · intro cfg vars pa pb r hlen hkeys
    by_cases hu : (nextUnit r).1 > cfg.crossover_rate
    · exact ⟨(pa, pb), by simp [_crossover, if_pos hu]⟩
    · have hnlt : ¬((vars.length : ℤ) - 1 < 1) := by
        have : (2 : ℤ) ≤ (vars.length : ℤ) := by exact_mod_cast hlen
        omega
      have hka : ∀ nm ∈ vars.map DesignVariable.name,
          (dget pa nm).isSome ∧ (dget pb nm).isSome := by
        intro nm hnm
        obtain ⟨v, hv, rfl⟩ := List.mem_map.mp hnm
        exact hkeys v hv
      obtain ⟨da, hda⟩ := crossGenes_total pa pb
        (1 + ((nextInt ((nextUnit r).2)).1 : ℤ) % ((vars.length : ℤ) - 1))
        (vars.map DesignVariable.name) hka 0
      obtain ⟨db, hdb⟩ := crossGenes_total pb pa
        (1 + ((nextInt ((nextUnit r).2)).1 : ℤ) % ((vars.length : ℤ) - 1))
        (vars.map DesignVariable.name)
        (fun nm hnm => (hka nm hnm).symm) 0
      exact ⟨(da, db), by simp [_crossover, if_neg hu, pyRandint, if_neg hnlt, hda, hdb]⟩

/-- Witness for C10: the one-variable branch errors concretely, and the
two-variable branch succeeds concretely. -/
theorem C10_witness :
    (_crossover cfgCross1 varsX [("x", 0)] [("x", 1)] stTie.rng).1
      = .error (.valueError "empty range for randrange") ∧
    ∃ ch, (_crossover cfgSpec8 varsXY [("x", 0), ("y", 0)] [("x", 1), ("y", 1)]
        (mkState (unitsOf [1/10]) gaussZero intsZero (uuidsTag "z")).rng).1 = .ok ch :=
  ⟨C10_theorem.1 cfgCross1 varsX [("x", 0)] [("x", 1)] stTie.rng
      (by with_unfolding_all decide) (by with_unfolding_all decide),
   C10_theorem.2.1 cfgSpec8 varsXY [("x", 0), ("y", 0)] [("x", 1), ("y", 1)]
      (mkState (unitsOf [1/10]) gaussZero intsZero (uuidsTag "z")).rng
      (by with_unfolding_all decide) (by with_unfolding_all decide)⟩

theorem append_history_existing (f : LedgerFile) (r : HistoryRecord)
    (h : f.fileExists = true) :
    (_append_history f r).headerCount = f.headerCount ∧
    (_append_history f r).fileExists = true ∧
    (_append_history f r).lines = f.lines ++ [LedgerLine.row r] := by
  simp [_append_history, h, LedgerFile.headerCount, LedgerLine.isHeader]

theorem appendAll_existing (f : LedgerFile) (rs : List HistoryRecord)
    (h : f.fileExists = true) :
    (appendAll f rs).headerCount = f.headerCount ∧ (appendAll f rs).fileExists = true := by
  induction rs generalizing f with
  | nil => exact ⟨rfl, h⟩
  | cons r rs ih =>
    obtain ⟨h1, h2, _⟩ := append_history_existing f r h
    have := ih (_append_history f r) h2
    simp only [appendAll, List.foldl_cons] at *
    exact ⟨this.1.trans h1, this.2⟩

/-- Claim C7 (amended): the header is written exactly once per ledger file —
the first append to a non-existing file writes it, and every later append
(including appends from a fresh process run reopening the same file) adds a
single data row without rewriting the header.  However, the generation tags
of a new process run do NOT continue from the file contents: they are
computed from the fresh in-memory history, so they restart at 1 and collide
with the generation numbers already recorded. -/
theorem C7_theorem :
    (∀ (f : LedgerFile) (r : HistoryRecord), f.fileExists = true →
       (_append_history f r).headerCount = f.headerCount ∧
       (_append_history f r).fileExists = true ∧
       (_append_history f r).lines = f.lines ++ [LedgerLine.row r]) ∧
    (∀ (r : HistoryRecord) (rs : List HistoryRecord),
       (appendAll LedgerFile.empty (r :: rs)).headerCount = 1) ∧
    (runLedger2.2.ledgerFile.headerCount = 1 ∧
     rowGenerations runLedger2.2.ledgerFile = [1, 2, 1, 2]) := by
  refine ⟨append_history_existing, ?_, by with_unfolding_all decide⟩
  intro r rs
  have h1 : (_append_history LedgerFile.empty r).headerCount = 1 := by
    simp [_append_history, LedgerFile.empty, LedgerFile.headerCount, LedgerLine.isHeader]
  have h2 : (_append_history LedgerFile.empty r).fileExists = true := rfl
  have := appendAll_existing (_append_history LedgerFile.empty r) rs h2
  simpa [appendAll, h1] using this.1

/-- Witness for C7: appending one more record to the file left behind by the
first ledger run does not add a header line. -/
theorem C7_witness :
    (_append_history runLedger1.2.ledgerFile ⟨1, "w", 1, 1, .num 1, []⟩).headerCount
      = runLedger1.2.ledgerFile.headerCount ∧
    (_append_history runLedger1.2.ledgerFile ⟨1, "w", 1, 1, .num 1, []⟩).fileExists = true ∧
    (_append_history runLedger1.2.ledgerFile ⟨1, "w", 1, 1, .num 1, []⟩).lines
      = runLedger1.2.ledgerFile.lines ++ [LedgerLine.row ⟨1, "w", 1, 1, .num 1, []⟩] :=
  C7_theorem.1 runLedger1.2.ledgerFile ⟨1, "w", 1, 1, .num 1, []⟩
    (by with_unfolding_all decide)

theorem evaluate_err_history (cfg : OptimizerConfig) (g : GeometryConfig)
    (solver : Solver) (ind : Dict) (st : RunState) (e : PyErr)
    (h : (_evaluate cfg g solver ind st).1 = .error e) :
    (_evaluate cfg g solver ind st).2.history = st.history := by
  revert h
  simp only [_evaluate, generate_geometry]
  split
  · intro _; rfl
  · split
    · intro _; rfl
    · split
      · intro _; rfl
      · intro h; simp at h

theorem evaluate_ok_history (cfg : OptimizerConfig) (g : GeometryConfig)
    (solver : Solver) (ind : Dict) (st : RunState)
    (v : Flt × AerodynamicCoefficients)
    (h : (_evaluate cfg g solver ind st).1 = .ok v) :
    ∃ rec, (_evaluate cfg g solver ind st).2.history = st.history ++ [rec] ∧
      rec.generation = st.history.length / cfg.population_size + 1 := by
  revert h
  simp only [_evaluate, generate_geometry]
  split
  · intro h; simp at h
  · split
    · intro h; simp at h
    · split
      · intro h; simp at h
      · intro _; exact ⟨_, rfl, rfl⟩

theorem TaggedOK_append {P : ℕ} {h : List HistoryRecord} {r : HistoryRecord}
    (hh : TaggedOK P h) (hr : r.generation = h.length / P + 1) :
    TaggedOK P (h ++ [r]) := by
  intro i r0 hi
  by_cases hlt : i < h.length
  · rw [List.get?_append hlt] at hi
    exact hh i r0 hi
  · have hle : h.length ≤ i := Nat.le_of_not_lt hlt
    rcases Nat.eq_or_lt_of_le hle with heq | hgt
    · subst heq
      rw [List.get?_concat_length] at hi
      cases hi
      exact hr
    · have : (h ++ [r]).length ≤ i := by simp; omega
      rw [List.get?_eq_none.mpr this] at hi
      cases hi

theorem evaluate_tag (cfg : OptimizerConfig) (g : GeometryConfig)
    (solver : Solver) (ind : Dict) (st : RunState)
    (h : TaggedOK cfg.population_size st.history) :
    TaggedOK cfg.population_size (_evaluate cfg g solver ind st).2.history := by
  rcases he : (_evaluate cfg g solver ind st).1 with e | v
  · rw [evaluate_err_history cfg g solver ind st e he]
    exact h
  · obtain ⟨rec, hrec, hgen⟩ := evaluate_ok_history cfg g solver ind st v he
    rw [hrec]
    exact TaggedOK_append h hgen

theorem evalPopulation_tag (cfg : OptimizerConfig) (g : GeometryConfig) (solver : Solver) :
    ∀ (inds : List Dict) (st : RunState),
      TaggedOK cfg.population_size st.history →
      TaggedOK cfg.population_size (evalPopulation cfg g solver inds st).2.history := by
  intro inds
  induction inds with
  | nil => intro st h; exact h
  | cons x rest ih =>
    intro st h
    have hx := evaluate_tag cfg g solver x st h
    rcases he : _evaluate cfg g solver x st with ⟨res, st'⟩
    rw [he] at hx
    cases res with
    | error e => simpa [evalPopulation, he] using hx
    | ok v =>
      have := ih st' hx
      rcases hrest : evalPopulation cfg g solver rest st' with ⟨res2, st''⟩
      rw [hrest] at this
      cases res2 <;> simpa [evalPopulation, he, hrest] using this

theorem generationStep_tag (cfg : OptimizerConfig) (vars : List DesignVariable)
    (g : GeometryConfig) (solver : Solver) (genIdx : ℕ) (pop : List Dict)
    (fit : List (Flt × AerodynamicCoefficients)) (st : RunState)
    (h : TaggedOK cfg.population_size st.history) :
    TaggedOK cfg.population_size
      (generationStep cfg vars g solver genIdx pop fit st).2.history := by
  simp only [generationStep]
  obtain ⟨resf, r, hf⟩ : ∃ a b, fillNext cfg vars pop fit (_elitism cfg pop fit) st.rng
      = (a, b) := ⟨_, _, rfl⟩
  rw [hf]
  cases resf with
  | error e => exact h
  | ok filled =>
    obtain ⟨rese, st', he⟩ : ∃ a b, evalPopulation cfg g solver
        (filled.take cfg.population_size) { st with rng := r } = (a, b) := ⟨_, _, rfl⟩
    have hTag := evalPopulation_tag cfg g solver (filled.take cfg.population_size)
      { st with rng := r } h
    rw [he] at hTag
    dsimp only
    rw [he]
    cases rese with
    | error e => exact hTag
    | ok fitness' =>
      dsimp only
      split
      · exact hTag
      · exact hTag

theorem runLoop_tag (cfg : OptimizerConfig) (vars : List DesignVariable)
    (g : GeometryConfig) (solver : Solver) :
    ∀ (n genIdx : ℕ) (pop : List Dict) (fit : List (Flt × AerodynamicCoefficients))
      (st : RunState),
      TaggedOK cfg.population_size st.history →
      TaggedOK cfg.population_size
        (runLoop cfg vars g solver n genIdx pop fit st).2.history := by
  intro n
  induction n with
  | zero => intro genIdx pop fit st h; exact h
  | succ n ih =>
    intro genIdx pop fit st h
    have hstep := generationStep_tag cfg vars g solver genIdx pop fit st h
    rcases hs : generationStep cfg vars g solver genIdx pop fit st with ⟨ress, st'⟩
    rw [hs] at hstep
    cases ress with
    | error e => simpa [runLoop, hs] using hstep
    | ok v =>
      have := ih (genIdx + 1) v.1 v.2 st' hstep
      simpa [runLoop, hs] using this

theorem initPopulation_length (vars : List DesignVariable) :
    ∀ (n : ℕ) (r : Rng), (initPopulation vars n r).1.length = n := by
  intro n
  induction n with
  | zero => intro r; rfl
  | succ n ih =>
    intro r
    simp [initPopulation, ih]

theorem evalPopulation_ok_history (cfg : OptimizerConfig) (g : GeometryConfig)
    (solver : Solver) :
    ∀ (inds : List Dict) (st : RunState) (v : List (Flt × AerodynamicCoefficients)),
      (evalPopulation cfg g solver inds st).1 = .ok v →
      (evalPopulation cfg g solver inds st).2.history.length
        = st.history.length + inds.length := by
  intro inds
  induction inds with
  | nil => intro st v _; simp [evalPopulation]
  | cons x rest ih =>
    intro st v h
    obtain ⟨res, st', he⟩ : ∃ a b, _evaluate cfg g solver x st = (a, b) := ⟨_, _, rfl⟩
    simp only [evalPopulation, he] at h ⊢
    cases res with
    | error e => simp at h
    | ok sc =>
      dsimp only at h ⊢
      obtain ⟨res2, st'', hrest⟩ : ∃ a b, evalPopulation cfg g solver rest st' = (a, b) :=
        ⟨_, _, rfl⟩
      rw [hrest] at h ⊢
      cases res2 with
      | error e => simp at h
      | ok scs =>
        have h1 : st'.history.length = st.history.length + 1 := by
          obtain ⟨rec, hr, _⟩ := evaluate_ok_history cfg g solver x st sc (by rw [he])
          rw [he] at hr
          have hr' : st'.history = st.history ++ [rec] := hr
          simp [hr']
        have h2 := ih st' scs (by rw [hrest])
        rw [hrest] at h2
        show st''.history.length = st.history.length + (x :: rest).length
        have h2' : st''.history.length = st'.history.length + rest.length := h2
        simp only [List.length_cons]
        omega

theorem offspringStep_ok_shape (cfg : OptimizerConfig) (vars : List DesignVariable)
    (pop : List Dict) (fit : List (Flt × AerodynamicCoefficients)) (next : List Dict)
    (r : Rng) (l' : List Dict) (r' : Rng)
    (h : offspringStep cfg vars pop fit next r = (.ok l', r')) :
    ∃ a b, l' = next ++ [a, b] := by
  simp only [offspringStep] at h
  repeat' split at h
  all_goals
    rw [Prod.mk.injEq] at h
  all_goals
    obtain ⟨h1, h2⟩ := h
  all_goals
    cases h1
  all_goals
    exact ⟨_, _, rfl⟩

theorem fillNextAux_ok_spec (cfg : OptimizerConfig) (vars : List DesignVariable)
    (pop : List Dict) (fit : List (Flt × AerodynamicCoefficients)) :
    ∀ (fuel : ℕ) (next : List Dict) (r : Rng) (l : List Dict) (r' : Rng),
      fillNextAux cfg vars pop fit fuel next r = (.ok l, r') →
      (∃ t, l = next ++ t) ∧
      (cfg.population_size ≤ 2 * fuel + next.length → cfg.population_size ≤ l.length) := by
  intro fuel
  induction fuel with
  | zero =>
    intro next r l r' h
    simp only [fillNextAux] at h
    have h1 := congrArg Prod.fst h
    simp only [Except.ok.injEq] at h1
    subst h1
    exact ⟨⟨[], by simp⟩, fun hp => by omega⟩
  | succ fuel ih =>
    intro next r l r' h
    simp only [fillNextAux] at h
    by_cases hlt : next.length < cfg.population_size
    · rw [if_pos hlt] at h
      obtain ⟨reso, ro, ho⟩ : ∃ a b, offspringStep cfg vars pop fit next r = (a, b) :=
        ⟨_, _, rfl⟩
      rw [ho] at h
      cases reso with
      | error e =>
        exfalso
        have h1 := congrArg Prod.fst h
        simp at h1
      | ok next' =>
        obtain ⟨a, b, hab⟩ := offspringStep_ok_shape cfg vars pop fit next r next' ro ho
        obtain ⟨⟨t, ht⟩, hlen⟩ := ih next' ro l r' h
        subst hab
        constructor
        · exact ⟨[a, b] ++ t, by simp [ht]⟩
        · intro hp
          apply hlen
          simp only [List.length_append, List.length_cons, List.length_nil]
          omega
    · rw [if_neg hlt] at h
      have h1 := congrArg Prod.fst h
      simp only [Except.ok.injEq] at h1
      subst h1
      exact ⟨⟨[], by simp⟩, fun _ => Nat.le_of_not_lt hlt⟩

theorem fillNext_ok_spec (cfg : OptimizerConfig) (vars : List DesignVariable)
    (pop : List Dict) (fit : List (Flt × AerodynamicCoefficients)) (next : List Dict)
    (r : Rng) (l : List Dict) (r' : Rng)
    (h : fillNext cfg vars pop fit next r = (.ok l, r')) :
    (∃ t, l = next ++ t) ∧ cfg.population_size ≤ l.length := by
  obtain ⟨hpre, hlen⟩ := fillNextAux_ok_spec cfg vars pop fit cfg.population_size next r l r' h
  exact ⟨hpre, hlen (by omega)⟩

theorem generationStep_ok_history (cfg : OptimizerConfig) (vars : List DesignVariable)
    (g : GeometryConfig) (solver : Solver) (genIdx : ℕ) (pop : List Dict)
    (fit : List (Flt × AerodynamicCoefficients)) (st : RunState)
    (v : List Dict × List (Flt × AerodynamicCoefficients))
    (h : (generationStep cfg vars g solver genIdx pop fit st).1 = .ok v) :
    (generationStep cfg vars g solver genIdx pop fit st).2.history.length
      = st.history.length + cfg.population_size := by
  simp only [generationStep] at h ⊢
  obtain ⟨resf, r, hf⟩ : ∃ a b, fillNext cfg vars pop fit (_elitism cfg pop fit) st.rng
      = (a, b) := ⟨_, _, rfl⟩
  rw [hf] at h ⊢
  cases resf with
  | error e => simp at h
  | ok filled =>
    dsimp only at h ⊢
    obtain ⟨rese, st', he⟩ : ∃ a b, evalPopulation cfg g solver
        (filled.take cfg.population_size) { st with rng := r } = (a, b) := ⟨_, _, rfl⟩
    rw [he] at h ⊢
    cases rese with
    | error e => simp at h
    | ok fitness' =>
      have hplen : (filled.take cfg.population_size).length = cfg.population_size := by
        have := (fillNext_ok_spec cfg vars pop fit (_elitism cfg pop fit) st.rng filled r hf).2
        simp [List.length_take]
        omega
      have hhist := evalPopulation_ok_history cfg g solver (filled.take cfg.population_size)
        { st with rng := r } fitness' (by rw [he])
      rw [he] at hhist
      dsimp only at h hhist ⊢
      split at h
      · simp at h
      · split
        · rw [hhist, hplen]
        · rw [hhist, hplen]

theorem runLoop_ok_history (cfg : OptimizerConfig) (vars : List DesignVariable)
    (g : GeometryConfig) (solver : Solver) :
    ∀ (n genIdx : ℕ) (pop : List Dict) (fit : List (Flt × AerodynamicCoefficients))
      (st : RunState) (v : List Dict × List (Flt × AerodynamicCoefficients)),
      (runLoop cfg vars g solver n genIdx pop fit st).1 = .ok v →
      (runLoop cfg vars g solver n genIdx pop fit st).2.history.length
        = st.history.length + n * cfg.population_size := by
  intro n
  induction n with
  | zero => intro genIdx pop fit st v _; simp [runLoop]
  | succ n ih =>
    intro genIdx pop fit st v h
    simp only [runLoop] at h ⊢
    obtain ⟨ress, st', hs⟩ : ∃ a b, generationStep cfg vars g solver genIdx pop fit st
        = (a, b) := ⟨_, _, rfl⟩
    rw [hs] at h ⊢
    cases ress with
    | error e => simp at h
    | ok w =>
      dsimp only at h ⊢
      have hg := generationStep_ok_history cfg vars g solver genIdx pop fit st w
        (by rw [hs])
      rw [hs] at hg
      have hr := ih (genIdx + 1) w.1 w.2 st' v h
      have hg' : st'.history.length = st.history.length + cfg.population_size := hg
      rw [hr, hg']
      ring

/-- Claim C3 (amended): a successful run performs `generations + 1` fitness
evaluation rounds — the initial population is evaluated before the loop, and
each loop iteration re-evaluates the new population — so the ledger receives
`(generations + 1) * population_size` entries; starting from an empty
history, entry `i` (0-based) is tagged generation `i / population_size + 1`.
In particular, `population_size = 4, generations = 1` yields 8 entries: 4
tagged generation 1 and 4 tagged generation 2. -/
theorem C3_theorem (cfg : OptimizerConfig) (vars : List DesignVariable)
    (g : GeometryConfig) (solver : Solver) (st : RunState)
    (res : Dict × AerodynamicCoefficients)
    (h : (optimise cfg vars g solver st).1 = .ok res) :
    (optimise cfg vars g solver st).2.history.length
      = st.history.length + (cfg.generations + 1) * cfg.population_size ∧
    (st.history = [] →
      TaggedOK cfg.population_size (optimise cfg vars g solver st).2.history) := by
  simp only [optimise] at h ⊢
  obtain ⟨population, r1, hini⟩ : ∃ a b, initPopulation vars cfg.population_size st.rng
      = (a, b) := ⟨_, _, rfl⟩
  rw [hini] at h ⊢
  dsimp only at h ⊢
  obtain ⟨res2, st2, he⟩ : ∃ a b, evalPopulation cfg g solver population
      { st with rng := r1 } = (a, b) := ⟨_, _, rfl⟩
  rw [he] at h ⊢
  cases res2 with
  | error e => simp at h
  | ok fitness0 =>
    dsimp only at h ⊢
    obtain ⟨res3, st3, hl⟩ : ∃ a b, runLoop cfg vars g solver cfg.generations 0
        population fitness0 st2 = (a, b) := ⟨_, _, rfl⟩
    rw [hl] at h ⊢
    cases res3 with
    | error e => simp at h
    | ok pr =>
      dsimp only at h ⊢
      have hpl : population.length = cfg.population_size := by
        have := initPopulation_length vars cfg.population_size st.rng
        rw [hini] at this
        exact this
      have h1 := evalPopulation_ok_history cfg g solver population
        { st with rng := r1 } fitness0 (by rw [he])
      rw [he] at h1
      have h1' : st2.history.length = st.history.length + cfg.population_size := by
        rw [h1, hpl]
      have h2 := runLoop_ok_history cfg vars g solver cfg.generations 0
        population fitness0 st2 pr (by rw [hl])
      rw [hl] at h2
      have h2' : st3.history.length
          = st2.history.length + cfg.generations * cfg.population_size := h2
      have htag : st.history = [] → TaggedOK cfg.population_size st3.history := by
        intro hemp
        have ht0 : TaggedOK cfg.population_size st.history := by
          rw [hemp]; intro i r0 hi; simp at hi
        have ht1 := evalPopulation_tag cfg g solver population { st with rng := r1 } ht0
        rw [he] at ht1
        have ht2 := runLoop_tag cfg vars g solver cfg.generations 0
          population fitness0 st2 ht1
        rw [hl] at ht2
        exact ht2
      rcases pr with ⟨pop', fit'⟩
      cases harg : argmaxFirst (fit'.map Prod.fst) with
      | error e => rw [harg] at h; simp at h
      | ok best_index =>
        rw [harg] at h
        dsimp only at h ⊢
        cases hpi : pyIndex pop' best_index with
        | error e => rw [hpi] at h; simp at h
        | ok best_individual =>
          rw [hpi] at h
          dsimp only at h ⊢
          cases hfi : pyIndex fit' best_index with
          | error e => rw [hfi] at h; simp at h
          | ok bp =>
            refine ⟨?_, htag⟩
            show st3.history.length
              = st.history.length + (cfg.generations + 1) * cfg.population_size
            rw [h2', h1']
            ring

/-- Claim C3 counterexample: the spec's own `population_size = 4,
generations = 1` scenario produces a ledger with 8 entries — 4 tagged
generation 1 and 4 tagged generation 2 — not 4 entries all tagged
generation 1. -/
theorem C3_counterexample :
    runSpec8.1.map Prod.fst = .ok [("x", 7), ("y", 8)] ∧
    runSpec8.2.history.length = 8 ∧
    runSpec8.2.history.map HistoryRecord.generation = [1, 1, 1, 1, 2, 2, 2, 2] := by
  with_unfolding_all decide

/-- Witness for C3: the amended count and tagging instantiated on the §8
scenario run. -/
theorem C3_witness :
    (optimise cfgSpec8 varsXY geomFix sumSolver
        (mkState unitsSpec8 gaussZero intsZero (uuidsTag "a"))).2.history.length
      = (mkState unitsSpec8 gaussZero intsZero (uuidsTag "a")).history.length
        + (cfgSpec8.generations + 1) * cfgSpec8.population_size ∧
    ((mkState unitsSpec8 gaussZero intsZero (uuidsTag "a")).history = [] →
      TaggedOK cfgSpec8.population_size
        (optimise cfgSpec8 varsXY geomFix sumSolver
          (mkState unitsSpec8 gaussZero intsZero (uuidsTag "a"))).2.history) :=
  C3_theorem cfgSpec8 varsXY geomFix sumSolver
    (mkState unitsSpec8 gaussZero intsZero (uuidsTag "a"))
    ([("x", 7), ("y", 8)], coefOf 15) (by with_unfolding_all decide)

/-- Claim C8: the `elitism` individuals ranked best by fitness — descending,
ties broken by evaluation order with the earliest winning (Python's stable
`sorted(..., reverse=True)`, embedded as `pySortDesc`) — appear unchanged,
gene for gene, as a prefix of the next generation's population, provided
`elitism ≤ population_size` (the configuration contract). -/
theorem C8_theorem (cfg : OptimizerConfig) (vars : List DesignVariable)
    (g : GeometryConfig) (solver : Solver) (genIdx : ℕ) (pop : List Dict)
    (fit : List (Flt × AerodynamicCoefficients)) (st : RunState)
    (v : List Dict × List (Flt × AerodynamicCoefficients))
    (hel : cfg.elitism ≤ cfg.population_size)
    (h : (generationStep cfg vars g solver genIdx pop fit st).1 = .ok v) :
    _elitism cfg pop fit <+: v.1 := by
  simp only [generationStep] at h
  obtain ⟨resf, r, hf⟩ : ∃ a b, fillNext cfg vars pop fit (_elitism cfg pop fit) st.rng
      = (a, b) := ⟨_, _, rfl⟩
  rw [hf] at h
  cases resf with
  | error e => simp at h
  | ok filled =>
    dsimp only at h
    obtain ⟨rese, st', he⟩ : ∃ a b, evalPopulation cfg g solver
        (filled.take cfg.population_size) { st with rng := r } = (a, b) := ⟨_, _, rfl⟩
    rw [he] at h
    cases rese with
    | error e => simp at h
    | ok fitness' =>
      dsimp only at h
      split at h
      · simp at h
      · have hv : v.1 = filled.take cfg.population_size := by
          simp only [Except.ok.injEq] at h
          rw [← h]
        obtain ⟨⟨t, ht⟩, _⟩ :=
          fillNext_ok_spec cfg vars pop fit (_elitism cfg pop fit) st.rng filled r hf
        have hellen : (_elitism cfg pop fit).length ≤ cfg.population_size := by
          refine le_trans ?_ hel
          simp only [_elitism, List.length_map, List.length_take]
          exact min_le_left _ _
        rw [hv, ht, List.take_append_eq_append_take,
          List.take_of_length_le hellen]
        exact ⟨_, rfl⟩

/-- Witness for C8: the tie scenario — elites are the two score-7 individuals
in evaluation order, and they head the next generation's population. -/
theorem C8_witness :
    cfgTie.elitism ≤ cfgTie.population_size ∧
    (generationStep cfgTie varsXY geomFix sumSolver 0 popTie fitTie stTie).1
      = .ok nextTie ∧
    _elitism cfgTie popTie fitTie <+: nextTie.1 :=
  ⟨by with_unfolding_all decide, by with_unfolding_all decide,
   C8_theorem cfgTie varsXY geomFix sumSolver 0 popTie fitTie stTie nextTie
     (by with_unfolding_all decide) (by with_unfolding_all decide)⟩

theorem geneOK_spec {ind : Dict} {v : DesignVariable} {x : ℚ}
    (h : geneOK ind v = true) (hx : dget ind v.name = some x) :
    v.minimum ≤ x ∧ x ≤ v.maximum := by
  unfold geneOK at h
  rw [hx] at h
  exact of_decide_eq_true h

theorem geneOK_of_dget {ind : Dict} {v : DesignVariable}
    (h : ∀ x, dget ind v.name = some x → v.minimum ≤ x ∧ x ≤ v.maximum) :
    geneOK ind v = true := by
  unfold geneOK
  cases hx : dget ind v.name with
  | none => rfl
  | some x => exact decide_eq_true (h x hx)

theorem dget_mem {d : Dict} {k : String} {x : ℚ} (h : dget d k = some x) : (k, x) ∈ d := by
  induction d with
  | nil => simp [dget] at h
  | cons e rest ih =>
    obtain ⟨k0, v0⟩ := e
    simp only [dget] at h
    by_cases hk : k0 = k
    · rw [if_pos hk] at h
      cases h
      subst hk
      exact List.mem_cons_self _ _
    · rw [if_neg hk] at h
      exact List.mem_cons_of_mem _ (ih h)

theorem inbounds_of_entries {vars : List DesignVariable} {d : Dict}
    (hent : ∀ e ∈ d, ∀ v0 ∈ vars, e.1 = v0.name →
      v0.minimum ≤ e.2 ∧ e.2 ≤ v0.maximum) :
    InBounds vars d := by
  intro v0 hv0
  apply geneOK_of_dget
  intro x hx
  exact hent (v0.name, x) (dget_mem hx) v0 hv0 rfl

theorem name_inj {vars : List DesignVariable}
    (hnd : (vars.map DesignVariable.name).Nodup) :
    ∀ v0 ∈ vars, ∀ v ∈ vars, v0.name = v.name → v0 = v := by
  induction vars with
  | nil => intro v0 hv0; simp at hv0
  | cons w rest ih =>
    simp only [List.map_cons, List.nodup_cons] at hnd
    intro v0 hv0 v hv hname
    rcases List.mem_cons.mp hv0 with h0 | h0 <;> rcases List.mem_cons.mp hv with h1 | h1
    · rw [h0, h1]
    · exfalso
      apply hnd.1
      rw [← h0, hname]
      exact List.mem_map.mpr ⟨v, h1, rfl⟩
    · exfalso
      apply hnd.1
      rw [← h1, ← hname]
      exact List.mem_map.mpr ⟨v0, h0, rfl⟩
    · exact ih hnd.2 v0 h0 v h1 hname

theorem clamp_mem (v : DesignVariable) (x : ℚ) (hb : v.minimum ≤ v.maximum) :
    v.minimum ≤ v.clamp x ∧ v.clamp x ≤ v.maximum := by
  unfold DesignVariable.clamp
  constructor
  · exact le_max_left _ _
  · exact max_le hb (min_le_left _ _)

theorem sample_mem (v : DesignVariable) (r : Rng) (hb : v.minimum ≤ v.maximum)
    (hu : 0 ≤ r.units r.uPos ∧ r.units r.uPos < 1) :
    v.minimum ≤ (v.sample r).1 ∧ (v.sample r).1 ≤ v.maximum := by
  unfold DesignVariable.sample pyUniform nextUnit
  dsimp only
  constructor
  · nlinarith [hu.1, hu.2]
  · nlinarith [hu.1, hu.2]

theorem random_individual_entries (vars : List DesignVariable) :
    ∀ (r : Rng), UnitsOK r.units →
      ∀ e ∈ (_random_individual vars r).1, ∃ v ∈ vars, e.1 = v.name ∧
        (v.minimum ≤ v.maximum → v.minimum ≤ e.2 ∧ e.2 ≤ v.maximum) := by
  induction vars with
  | nil =>
    intro r _ e he
    simp [_random_individual] at he
  | cons v vs ih =>
    intro r hu e he
    obtain ⟨x, r1, hs⟩ : ∃ a b, v.sample r = (a, b) := ⟨_, _, rfl⟩
    have hx : x = (v.sample r).1 := by rw [hs]
    have hr1 : r1 = (v.sample r).2 := by rw [hs]
    simp only [_random_individual, hs] at he
    rcases List.mem_cons.mp he with h0 | h0
    · refine ⟨v, List.mem_cons_self _ _, by rw [h0], fun hb => ?_⟩
      have := sample_mem v r hb (hu r.uPos)
      rw [h0, hx]
      exact ⟨this.1, this.2⟩
    · have hu1 : UnitsOK r1.units := by
        rw [hr1]
        exact hu
      obtain ⟨w, hw, hn, hbnd⟩ := ih r1 hu1 e h0
      exact ⟨w, List.mem_cons_of_mem _ hw, hn, hbnd⟩

theorem random_individual_units (vars : List DesignVariable) :
    ∀ r : Rng, (_random_individual vars r).2.units = r.units := by
  induction vars with
  | nil => intro r; rfl
  | cons v vs ih => intro r; exact ih (v.sample r).2

theorem random_individual_inbounds {vars : List DesignVariable}
    (hnd : (vars.map DesignVariable.name).Nodup)
    (hb : ∀ v ∈ vars, v.minimum ≤ v.maximum) (r : Rng) (hu : UnitsOK r.units) :
    InBounds vars (_random_individual vars r).1 := by
  apply inbounds_of_entries
  intro e he v0 hv0 hname
  obtain ⟨v, hv, hn, hbnd⟩ := random_individual_entries vars r hu e he
  have hv0v : v0 = v := name_inj hnd v0 hv0 v hv (hname.symm.trans hn)
  rw [hv0v]
  exact hbnd (hb v hv)

theorem initPopulation_inbounds {vars : List DesignVariable}
    (hnd : (vars.map DesignVariable.name).Nodup)
    (hb : ∀ v ∈ vars, v.minimum ≤ v.maximum) :
    ∀ (n : ℕ) (r : Rng), UnitsOK r.units →
      ∀ ind ∈ (initPopulation vars n r).1, InBounds vars ind := by
  intro n
  induction n with
  | zero => intro r _ ind h; simp [initPopulation] at h
  | succ n ih =>
    intro r hu ind h
    simp only [initPopulation] at h
    rcases List.mem_cons.mp h with h0 | h0
    · rw [h0]
      exact random_individual_inbounds hnd hb r hu
    · have hu' : UnitsOK (_random_individual vars r).2.units := by
        rw [random_individual_units]
        exact hu
      exact ih (_random_individual vars r).2 hu' ind h0

theorem mutateGenes_inbounds (cfg : OptimizerConfig) {vars : List DesignVariable}
    (hnd : (vars.map DesignVariable.name).Nodup)
    (hb : ∀ v ∈ vars, v.minimum ≤ v.maximum) :
    ∀ (todo : List DesignVariable), (∀ v ∈ todo, v ∈ vars) →
      ∀ (d : Dict) (r : Rng) (res : Dict) (r' : Rng),
        InBounds vars d →
        mutateGenes cfg todo d r = (.ok res, r') →
        InBounds vars res := by
  intro todo
  induction todo with
  | nil =>
    intro _ d r res r' hd h
    simp only [mutateGenes, Prod.mk.injEq, Except.ok.injEq] at h
    rw [← h.1]
    exact hd
  | cons v vs ih =>
    intro hsub d r res r' hd h
    simp only [mutateGenes] at h
    split at h
    · cases hx : dget d v.name with
      | none =>
        rw [show dgetE d v.name = .error (.keyError v.name) by simp [dgetE, hx]] at h
        simp at h
      | some x =>
        rw [show dgetE d v.name = .ok x by simp [dgetE, hx]] at h
        have hdset : InBounds vars
            (dset d v.name (v.clamp (x + cfg.mutation_sigma * (v.maximum - v.minimum) *
              (nextGauss (nextUnit r).2).1))) := by
          intro v0 hv0
          apply geneOK_of_dget
          intro y hy
          rw [dget_dset] at hy
          by_cases hname : v0.name = v.name
          · rw [if_pos hname] at hy
            cases hy
            have hv0v : v0 = v := name_inj hnd v0 hv0 v (hsub v (List.mem_cons_self _ _)) hname
            rw [hv0v]
            exact clamp_mem v _ (hb v (hsub v (List.mem_cons_self _ _)))
          · rw [if_neg hname] at hy
            exact geneOK_spec (hd v0 hv0) hy
        exact ih (fun w hw => hsub w (List.mem_cons_of_mem _ hw)) _ _ res r' hdset h
    · exact ih (fun w hw => hsub w (List.mem_cons_of_mem _ hw)) d _ res r' hd h

theorem crossGenes_entries (pa pb : Dict) (piv : ℤ) :
    ∀ (names : List String) (idx : ℕ) (d : Dict),
      crossGenes pa pb piv names idx = .ok d →
      ∀ e ∈ d, dget pa e.1 = some e.2 ∨ dget pb e.1 = some e.2 := by
  intro names
  induction names with
  | nil =>
    intro idx d h e he
    simp only [crossGenes, Except.ok.injEq] at h
    rw [← h] at he
    simp at he
  | cons nm names ih =>
    intro idx d h e he
    simp only [crossGenes] at h
    by_cases hp : ((idx : ℤ) < piv)
    · rw [if_pos hp] at h
      cases hx : dget pa nm with
      | none =>
        rw [show dgetE pa nm = .error (.keyError nm) by simp [dgetE, hx]] at h
        simp at h
      | some x =>
        rw [show dgetE pa nm = .ok x by simp [dgetE, hx]] at h
        cases hrest : crossGenes pa pb piv names (idx + 1) with
        | error e2 => rw [hrest] at h; simp at h
        | ok d' =>
          rw [hrest] at h
          simp only [Except.ok.injEq] at h
          rw [← h] at he
          rcases List.mem_cons.mp he with h0 | h0
          · rw [h0]
            exact Or.inl hx
          · exact ih (idx + 1) d' hrest e h0
    · rw [if_neg hp] at h
      cases hx : dget pb nm with
      | none =>
        rw [show dgetE pb nm = .error (.keyError nm) by simp [dgetE, hx]] at h
        simp at h
      | some x =>
        rw [show dgetE pb nm = .ok x by simp [dgetE, hx]] at h
        cases hrest : crossGenes pa pb piv names (idx + 1) with
        | error e2 => rw [hrest] at h; simp at h
        | ok d' =>
          rw [hrest] at h
          simp only [Except.ok.injEq] at h
          rw [← h] at he
          rcases List.mem_cons.mp he with h0 | h0
          · rw [h0]
            exact Or.inr hx
          · exact ih (idx + 1) d' hrest e h0

theorem inbounds_of_parents {vars : List DesignVariable} {pa pb d : Dict}
    (hpa : InBounds vars pa) (hpb : InBounds vars pb)
    (hent : ∀ e ∈ d, dget pa e.1 = some e.2 ∨ dget pb e.1 = some e.2) :
    InBounds vars d := by
  apply inbounds_of_entries
  intro e he v0 hv0 hname
  rcases hent e he with hc | hc
  · exact geneOK_spec (hpa v0 hv0) (hname ▸ hc)
  · exact geneOK_spec (hpb v0 hv0) (hname ▸ hc)

theorem crossover_ok_inbounds (cfg : OptimizerConfig) {vars : List DesignVariable}
    (pa pb : Dict) (r : Rng) (ch : Dict × Dict) (r' : Rng)
    (hpa : InBounds vars pa) (hpb : InBounds vars pb)
    (h : _crossover cfg vars pa pb r = (.ok ch, r')) :
    InBounds vars ch.1 ∧ InBounds vars ch.2 := by
  simp only [_crossover] at h
  split at h
  · simp only [Prod.mk.injEq, Except.ok.injEq] at h
    rw [← h.1]
    exact ⟨hpa, hpb⟩
  · obtain ⟨resp, r2, hp⟩ : ∃ a b, pyRandint 1 ((vars.length : ℤ) - 1) (nextUnit r).2
        = (a, b) := ⟨_, _, rfl⟩
    rw [hp] at h
    cases resp with
    | error e => simp at h
    | ok piv =>
      dsimp only at h
      cases hca : crossGenes pa pb piv (vars.map DesignVariable.name) 0 with
      | error e => rw [hca] at h; simp at h
      | ok da =>
        rw [hca] at h
        cases hcb : crossGenes pb pa piv (vars.map DesignVariable.name) 0 with
        | error e => rw [hcb] at h; simp at h
        | ok db =>
          rw [hcb] at h
          simp only [Prod.mk.injEq, Except.ok.injEq] at h
          rw [← h.1]
          constructor
          · exact inbounds_of_parents hpa hpb (crossGenes_entries pa pb piv _ 0 da hca)
          · exact inbounds_of_parents hpb hpa (crossGenes_entries pb pa piv _ 0 db hcb)

theorem select_ok_mem (cfg : OptimizerConfig) (pop : List Dict)
    (fit : List (Flt × AerodynamicCoefficients)) (r : Rng) (p : Dict) (r' : Rng)
    (h : _select cfg pop fit r = (.ok p, r')) : p ∈ pop := by
  simp only [_select] at h
  obtain ⟨ress, r1, hs⟩ : ∃ a b, pySample pop.length cfg.tournament_size r = (a, b) :=
    ⟨_, _, rfl⟩
  rw [hs] at h
  cases ress with
  | error e => simp at h
  | ok participants =>
    dsimp only at h
    cases hm : pyMaxBy (fun idx => (pyIndex fit idx).map Prod.fst) participants with
    | error e => rw [hm] at h; simp at h
    | ok best_idx =>
      rw [hm] at h
      dsimp only at h
      cases hpi : pyIndex pop best_idx with
      | error e => rw [hpi] at h; simp at h
      | ok q =>
        rw [hpi] at h
        simp only [Prod.mk.injEq, Except.ok.injEq] at h
        rw [← h.1]
        exact List.get?_mem (pyIndex_eq_ok.mp hpi)

theorem mem_insertDesc {α : Type} (key : α → Flt) (x y : α) (l : List α)
    (h : y ∈ insertDesc key x l) : y = x ∨ y ∈ l := by
  induction l with
  | nil => simpa [insertDesc] using h
  | cons z zs ih =>
    simp only [insertDesc] at h
    split at h
    · rcases List.mem_cons.mp h with h0 | h0
      · exact Or.inr (List.mem_cons.mpr (Or.inl h0))
      · rcases ih h0 with h1 | h1
        · exact Or.inl h1
        · exact Or.inr (List.mem_cons.mpr (Or.inr h1))
    · rcases List.mem_cons.mp h with h0 | h0
      · exact Or.inl h0
      · exact Or.inr h0

theorem mem_pySortDesc {α : Type} (key : α → Flt) (l : List α) (y : α)
    (h : y ∈ pySortDesc key l) : y ∈ l := by
  induction l with
  | nil => simpa [pySortDesc] using h
  | cons x xs ih =>
    simp only [pySortDesc] at h
    rcases mem_insertDesc key x y _ h with h0 | h0
    · simp [h0]
    · exact List.mem_cons.mpr (Or.inr (ih h0))

theorem elitism_mem (cfg : OptimizerConfig) (pop : List Dict)
    (fit : List (Flt × AerodynamicCoefficients)) (p : Dict)
    (h : p ∈ _elitism cfg pop fit) : p ∈ pop := by
  simp only [_elitism] at h
  obtain ⟨pair, hpair, hfst⟩ := List.mem_map.mp h
  have h3 := mem_pySortDesc (fun item => item.2.1) (pop.zip fit) pair
    (List.take_subset _ _ hpair)
  obtain ⟨a, b⟩ := pair
  cases hfst
  exact (List.mem_zip h3).1

theorem offspringStep_inbounds (cfg : OptimizerConfig) {vars : List DesignVariable}
    (hnd : (vars.map DesignVariable.name).Nodup)
    (hb : ∀ v ∈ vars, v.minimum ≤ v.maximum)
    (pop : List Dict) (fit : List (Flt × AerodynamicCoefficients)) (next : List Dict)
    (r : Rng) (l' : List Dict) (r' : Rng)
    (hpop : ∀ p ∈ pop, InBounds vars p) (hnext : ∀ p ∈ next, InBounds vars p)
    (h : offspringStep cfg vars pop fit next r = (.ok l', r')) :
    ∀ p ∈ l', InBounds vars p := by
  simp only [offspringStep] at h
  obtain ⟨ra, r1, ha⟩ : ∃ a b, _select cfg pop fit r = (a, b) := ⟨_, _, rfl⟩
  rw [ha] at h
  cases ra with
  | error e => simp at h
  | ok parent_a =>
    dsimp only at h
    obtain ⟨rb, r2, hbsel⟩ : ∃ a b, _select cfg pop fit r1 = (a, b) := ⟨_, _, rfl⟩
    rw [hbsel] at h
    cases rb with
    | error e => simp at h
    | ok parent_b =>
      dsimp only at h
      obtain ⟨rc, r3, hc⟩ : ∃ a b, _crossover cfg vars parent_a parent_b r2 = (a, b) :=
        ⟨_, _, rfl⟩
      rw [hc] at h
      cases rc with
      | error e => simp at h
      | ok ch =>
        obtain ⟨child_a, child_b⟩ := ch
        dsimp only at h
        obtain ⟨rma, r4, hma⟩ : ∃ a b, _mutate cfg vars child_a r3 = (a, b) := ⟨_, _, rfl⟩
        rw [hma] at h
        cases rma with
        | error e => simp at h
        | ok child_a' =>
          dsimp only at h
          obtain ⟨rmb, r5, hmb⟩ : ∃ a b, _mutate cfg vars child_b r4 = (a, b) := ⟨_, _, rfl⟩
          rw [hmb] at h
          cases rmb with
          | error e => simp at h
          | ok child_b' =>
            simp only [Prod.mk.injEq, Except.ok.injEq] at h
            have hpa := select_ok_mem cfg pop fit r parent_a r1 ha
            have hpb := select_ok_mem cfg pop fit r1 parent_b r2 hbsel
            have hch := crossover_ok_inbounds cfg parent_a parent_b r2 (child_a, child_b) r3
              (hpop _ hpa) (hpop _ hpb) hc
            have hca' := mutateGenes_inbounds cfg hnd hb vars (fun _ hv => hv)
              child_a r3 child_a' r4 hch.1 hma
            have hcb' := mutateGenes_inbounds cfg hnd hb vars (fun _ hv => hv)
              child_b r4 child_b' r5 hch.2 hmb
            intro p hp
            rw [← h.1] at hp
            rcases List.mem_append.mp hp with h0 | h0
            · exact hnext p h0
            · rcases List.mem_cons.mp h0 with h1 | h1
              · rw [h1]; exact hca'
              · rw [List.mem_singleton.mp h1]; exact hcb'

theorem fillNextAux_inbounds (cfg : OptimizerConfig) {vars : List DesignVariable}
    (hnd : (vars.map DesignVariable.name).Nodup)
    (hb : ∀ v ∈ vars, v.minimum ≤ v.maximum)
    (pop : List Dict) (fit : List (Flt × AerodynamicCoefficients))
    (hpop : ∀ p ∈ pop, InBounds vars p) :
    ∀ (fuel : ℕ) (next : List Dict) (r : Rng) (l : List Dict) (r' : Rng),
      (∀ p ∈ next, InBounds vars p) →
      fillNextAux cfg vars pop fit fuel next r = (.ok l, r') →
      ∀ p ∈ l, InBounds vars p := by
  intro fuel
  induction fuel with
  | zero =>
    intro next r l r' hnext h
    simp only [fillNextAux, Prod.mk.injEq, Except.ok.injEq] at h
    rw [← h.1]
    exact hnext
  | succ fuel ih =>
    intro next r l r' hnext h
    simp only [fillNextAux] at h
    split at h
    · obtain ⟨reso, ro, ho⟩ : ∃ a b, offspringStep cfg vars pop fit next r = (a, b) :=
        ⟨_, _, rfl⟩
      rw [ho] at h
      cases reso with
      | error e => simp at h
      | ok next' =>
        exact ih next' ro l r'
          (offspringStep_inbounds cfg hnd hb pop fit next r next' ro hpop hnext ho) h
    · simp only [Prod.mk.injEq, Except.ok.injEq] at h
      rw [← h.1]
      exact hnext

/-- Claim C9: the clamping invariant.  Under the data-model contract
(`minimum ≤ maximum` for every variable, unique variable names) and with
`random.random` drawing in `[0, 1)`: every individual of the initial random
population has all genes within bounds, and one full generation step
(elitism + selection + crossover + mutation + truncation) maps an
all-in-bounds population to an all-in-bounds population — so every
individual ever stored in a population satisfies the invariant. -/
theorem C9_theorem (vars : List DesignVariable)
    (hnd : (vars.map DesignVariable.name).Nodup)
    (hb : ∀ v ∈ vars, v.minimum ≤ v.maximum) :
    (∀ (n : ℕ) (r : Rng), UnitsOK r.units →
       ∀ ind ∈ (initPopulation vars n r).1, InBounds vars ind) ∧
    (∀ (cfg : OptimizerConfig) (g : GeometryConfig) (solver : Solver) (genIdx : ℕ)
       (pop : List Dict) (fit : List (Flt × AerodynamicCoefficients)) (st : RunState)
       (v : List Dict × List (Flt × AerodynamicCoefficients)),
       (∀ p ∈ pop, InBounds vars p) →
       (generationStep cfg vars g solver genIdx pop fit st).1 = .ok v →
       ∀ p ∈ v.1, InBounds vars p) := by
  constructor
  · exact fun n r hu => initPopulation_inbounds hnd hb n r hu
  · intro cfg g solver genIdx pop fit st v hpop h
    simp only [generationStep] at h
    obtain ⟨resf, r, hf⟩ : ∃ a b, fillNext cfg vars pop fit (_elitism cfg pop fit) st.rng
        = (a, b) := ⟨_, _, rfl⟩
    rw [hf] at h
    cases resf with
    | error e => simp at h
    | ok filled =>
      dsimp only at h
      obtain ⟨rese, st', he⟩ : ∃ a b, evalPopulation cfg g solver
          (filled.take cfg.population_size) { st with rng := r } = (a, b) := ⟨_, _, rfl⟩
      rw [he] at h
      cases rese with
      | error e => simp at h
      | ok fitness' =>
        dsimp only at h
        split at h
        · simp at h
        · simp only [Except.ok.injEq] at h
          have hfilled : ∀ p ∈ filled, InBounds vars p :=
            fillNextAux_inbounds cfg hnd hb pop fit hpop cfg.population_size
              (_elitism cfg pop fit) st.rng filled r
              (fun p hp => hpop p (elitism_mem cfg pop fit p hp)) hf
          intro p hp
          rw [← h] at hp
          exact hfilled p (List.take_subset _ _ hp)

theorem unitsOf_ok (l : List ℚ) (hl : ∀ x ∈ l, 0 ≤ x ∧ x < 1) : UnitsOK (unitsOf l) := by
  intro n
  unfold unitsOf
  rcases hg : l.get? n with _ | x
  · rw [List.getD_eq_getD_get?, hg]
    norm_num
  · rw [List.getD_eq_getD_get?, hg]
    exact hl x (List.get?_mem hg)

/-- Witness for C9: the invariant instantiated on the §8 variable set — the
initial population of the §8 run is in bounds, and the tie-scenario
generation step keeps its all-in-bounds population in bounds. -/
theorem C9_witness :
    (∀ ind ∈ (initPopulation varsXY 4
        (mkState unitsSpec8 gaussZero intsZero (uuidsTag "a")).rng).1,
      InBounds varsXY ind) ∧
    (∀ p ∈ nextTie.1, InBounds varsXY p) := by
  have hnd : (varsXY.map DesignVariable.name).Nodup := by decide
  have hb : ∀ v ∈ varsXY, v.minimum ≤ v.maximum := by
    intro v hv
    fin_cases hv <;> norm_num [varsXY]
  have hu : UnitsOK (mkState unitsSpec8 gaussZero intsZero (uuidsTag "a")).rng.units := by
    apply unitsOf_ok
    intro x hx
    fin_cases hx <;> constructor <;> norm_num
  constructor
  · exact (C9_theorem varsXY hnd hb).1 4 _ hu
  · exact (C9_theorem varsXY hnd hb).2 cfgTie geomFix sumSolver 0 popTie fitTie stTie
      nextTie (by with_unfolding_all decide) (by with_unfolding_all decide)

theorem filter_isEmpty_of_strip {h1 h2 : List HistoryRecord} (k : ℕ)
    (hh : h1.map stripRec = h2.map stripRec) :
    (h1.filter (fun rec0 => rec0.generation = k)).isEmpty
      = (h2.filter (fun rec0 => rec0.generation = k)).isEmpty := by
  have hg : h1.map (fun r => r.generation) = h2.map (fun r => r.generation) := by
    have := congrArg (List.map HistoryRecord.generation) hh
    simpa [List.map_map, Function.comp, stripRec] using this
  have key : ∀ (l1 l2 : List HistoryRecord),
      l1.map (fun r => r.generation) = l2.map (fun r => r.generation) →
      (l1.filter (fun rec0 => rec0.generation = k)).isEmpty = true →
      (l2.filter (fun rec0 => rec0.generation = k)).isEmpty = true := by
    intro l1 l2 hmap hemp
    rw [List.isEmpty_iff, List.filter_eq_nil] at hemp ⊢
    intro a ha
    have hmem : a.generation ∈ l2.map (fun r => r.generation) :=
      List.mem_map_of_mem _ ha
    rw [← hmap] at hmem
    obtain ⟨b, hb, hba⟩ := List.mem_map.mp hmem
    have := hemp b hb
    simp only [decide_eq_true_eq] at this ⊢
    rw [← hba]
    exact this
  cases hb1 : (h1.filter (fun rec0 => rec0.generation = k)).isEmpty <;>
    cases hb2 : (h2.filter (fun rec0 => rec0.generation = k)).isEmpty
  · rfl
  · have := key h2 h1 hg.symm hb2
    rw [this] at hb1
    exact hb1.symm ▸ rfl
  · have := key h1 h2 hg hb1
    rw [this] at hb2
    exact hb2 ▸ rfl
  · rfl

theorem append_history_strip {f1 f2 : LedgerFile} {r1 r2 : HistoryRecord}
    (hfe : f1.fileExists = f2.fileExists)
    (hfl : f1.lines.map stripLine = f2.lines.map stripLine)
    (hrec : stripRec r1 = stripRec r2) :
    (_append_history f1 r1).fileExists = (_append_history f2 r2).fileExists ∧
    (_append_history f1 r1).lines.map stripLine = (_append_history f2 r2).lines.map stripLine := by
  have hent : r1.entries = r2.entries := by
    have := congrArg HistoryRecord.entries hrec
    simpa [stripRec] using this
  have hfn : recordFieldnames r1 = recordFieldnames r2 := by
    unfold recordFieldnames
    rw [hent]
  refine ⟨rfl, ?_⟩
  simp only [_append_history, List.map_append, hfl, hfe, hfn]
  split <;> simp [stripLine, hrec]

theorem evaluate_sim (cfg : OptimizerConfig) (g : GeometryConfig) (solver : Solver)
    (ind : Dict) {s t : RunState} (hst : SameModId s t) :
    (_evaluate cfg g solver ind s).1 = (_evaluate cfg g solver ind t).1 ∧
    SameModId (_evaluate cfg g solver ind s).2 (_evaluate cfg g solver ind t).2 := by
  obtain ⟨hr, huu, hsc, hh, hfe, hfl⟩ := hst
  have hlen : s.history.length = t.history.length := by
    have := congrArg List.length hh
    simpa using this
  simp only [_evaluate, generate_geometry]
  by_cases hm : g.su2Enabled
  · rw [hm]
    simp only [Bool.not_true, Bool.false_eq_true, if_false]
    cases hsol : solver (dictUpdate ind (deriveMetadata g ind)) with
    | error e =>
      dsimp only
      exact ⟨rfl, hr, by simp [huu], by simp [hsc], hh, hfe, hfl⟩
    | ok coefficients =>
      dsimp only
      cases hobj : _objective cfg coefficients with
      | error e =>
        dsimp only
        exact ⟨rfl, hr, by simp [huu], by simp [hsc], hh, hfe, hfl⟩
      | ok score =>
        dsimp only
        have hrec : stripRec
            { generation := s.history.length / cfg.population_size + 1
              design_id := s.uuids s.uuidFresh
              cl := coefficients.cl, cd := coefficients.cd, cl_cd := coefficients.cl_cd
              entries := dictUpdate ind (deriveMetadata g ind) } = stripRec
            { generation := t.history.length / cfg.population_size + 1
              design_id := t.uuids t.uuidFresh
              cl := coefficients.cl, cd := coefficients.cd, cl_cd := coefficients.cl_cd
              entries := dictUpdate ind (deriveMetadata g ind) } := by
          simp [stripRec, hlen]
        obtain ⟨hfe', hfl'⟩ := append_history_strip hfe hfl hrec
        refine ⟨rfl, hr, by simp [huu], by simp [hsc], ?_, hfe', hfl'⟩
        simp only [List.map_append, hh, List.map_cons, List.map_nil, hrec]
  · simp only [Bool.not_eq_true] at hm
    rw [hm]
    simp only [Bool.not_false, if_true]
    exact ⟨by simp, hr, by simp [huu], hsc, hh, hfe, hfl⟩

theorem evalPopulation_sim (cfg : OptimizerConfig) (g : GeometryConfig) (solver : Solver) :
    ∀ (inds : List Dict) {s t : RunState}, SameModId s t →
      (evalPopulation cfg g solver inds s).1 = (evalPopulation cfg g solver inds t).1 ∧
      SameModId (evalPopulation cfg g solver inds s).2
        (evalPopulation cfg g solver inds t).2 := by
  intro inds
  induction inds with
  | nil => intro s t hst; exact ⟨rfl, hst⟩
  | cons x rest ih =>
    intro s t hst
    obtain ⟨h1, h2⟩ := evaluate_sim cfg g solver x hst
    obtain ⟨ress, s', hes⟩ : ∃ a b, _evaluate cfg g solver x s = (a, b) := ⟨_, _, rfl⟩
    obtain ⟨rest0, t', het⟩ : ∃ a b, _evaluate cfg g solver x t = (a, b) := ⟨_, _, rfl⟩
    rw [hes, het] at h1 h2
    have h1' : ress = rest0 := h1
    have h2' : SameModId s' t' := h2
    subst h1'
    simp only [evalPopulation, hes, het]
    cases ress with
    | error e => exact ⟨rfl, h2'⟩
    | ok sc =>
      dsimp only
      obtain ⟨hr1, hr2⟩ := ih h2'
      obtain ⟨r1, s'', he1⟩ : ∃ a b, evalPopulation cfg g solver rest s' = (a, b) :=
        ⟨_, _, rfl⟩
      obtain ⟨r2, t'', he2⟩ : ∃ a b, evalPopulation cfg g solver rest t' = (a, b) :=
        ⟨_, _, rfl⟩
      rw [he1, he2] at hr1 hr2
      have hr1' : r1 = r2 := hr1
      have hr2' : SameModId s'' t'' := hr2
      subst hr1'
      rw [he1, he2]
      cases r1 with
      | error e => exact ⟨rfl, hr2'⟩
      | ok scs => exact ⟨rfl, hr2'⟩

theorem generationStep_sim (cfg : OptimizerConfig) (vars : List DesignVariable)
    (g : GeometryConfig) (solver : Solver) (genIdx : ℕ) (pop : List Dict)
    (fit : List (Flt × AerodynamicCoefficients)) {s t : RunState} (hst : SameModId s t) :
    (generationStep cfg vars g solver genIdx pop fit s).1
      = (generationStep cfg vars g solver genIdx pop fit t).1 ∧
    SameModId (generationStep cfg vars g solver genIdx pop fit s).2
      (generationStep cfg vars g solver genIdx pop fit t).2 := by
  obtain ⟨hr, huu, hsc, hh, hfe, hfl⟩ := hst
  simp only [generationStep, hr]
  obtain ⟨resf, r, hf⟩ : ∃ a b, fillNext cfg vars pop fit (_elitism cfg pop fit) t.rng
      = (a, b) := ⟨_, _, rfl⟩
  rw [hf]
  cases resf with
  | error e => exact ⟨rfl, rfl, huu, hsc, hh, hfe, hfl⟩
  | ok filled =>
    dsimp only
    have hstep : SameModId { s with rng := r } { t with rng := r } :=
      ⟨rfl, huu, hsc, hh, hfe, hfl⟩
    obtain ⟨h1, h2⟩ := evalPopulation_sim cfg g solver (filled.take cfg.population_size) hstep
    obtain ⟨rese, s', hes⟩ : ∃ a b, evalPopulation cfg g solver
        (filled.take cfg.population_size) { s with rng := r } = (a, b) := ⟨_, _, rfl⟩
    obtain ⟨rese2, t', het⟩ : ∃ a b, evalPopulation cfg g solver
        (filled.take cfg.population_size) { t with rng := r } = (a, b) := ⟨_, _, rfl⟩
    rw [hes, het] at h1 h2
    have h1' : rese = rese2 := h1
    have h2' : SameModId s' t' := h2
    subst h1'
    rw [hes, het]
    cases rese with
    | error e => exact ⟨rfl, h2'⟩
    | ok fitness' =>
      dsimp only
      have hemp := filter_isEmpty_of_strip (genIdx + 1) h2'.2.2.2.1
      by_cases hc : (t'.history.filter (fun rec0 => rec0.generation = genIdx + 1)).isEmpty
        = true
      · rw [if_pos (hemp.trans hc), if_pos hc]
        exact ⟨rfl, h2'⟩
      · rw [if_neg (fun hx => hc (hemp.symm.trans hx)), if_neg hc]
        exact ⟨rfl, h2'⟩

theorem runLoop_sim (cfg : OptimizerConfig) (vars : List DesignVariable)
    (g : GeometryConfig) (solver : Solver) :
    ∀ (n genIdx : ℕ) (pop : List Dict) (fit : List (Flt × AerodynamicCoefficients))
      {s t : RunState}, SameModId s t →
      (runLoop cfg vars g solver n genIdx pop fit s).1
        = (runLoop cfg vars g solver n genIdx pop fit t).1 ∧
      SameModId (runLoop cfg vars g solver n genIdx pop fit s).2
        (runLoop cfg vars g solver n genIdx pop fit t).2 := by
  intro n
  induction n with
  | zero => intro genIdx pop fit s t hst; exact ⟨rfl, hst⟩
  | succ n ih =>
    intro genIdx pop fit s t hst
    obtain ⟨h1, h2⟩ := generationStep_sim cfg vars g solver genIdx pop fit hst
    obtain ⟨ress, s', hs⟩ : ∃ a b, generationStep cfg vars g solver genIdx pop fit s
        = (a, b) := ⟨_, _, rfl⟩
    obtain ⟨rest0, t', ht⟩ : ∃ a b, generationStep cfg vars g solver genIdx pop fit t
        = (a, b) := ⟨_, _, rfl⟩
    rw [hs, ht] at h1 h2
    have h1' : ress = rest0 := h1
    have h2' : SameModId s' t' := h2
    subst h1'
    simp only [runLoop, hs, ht]
    cases ress with
    | error e => exact ⟨rfl, h2'⟩
    | ok w => exact ih (genIdx + 1) w.1 w.2 h2'

theorem optimise_sim (cfg : OptimizerConfig) (vars : List DesignVariable)
    (g : GeometryConfig) (solver : Solver) {s t : RunState} (hst : SameModId s t) :
    (optimise cfg vars g solver s).1 = (optimise cfg vars g solver t).1 ∧
    SameModId (optimise cfg vars g solver s).2 (optimise cfg vars g solver t).2 := by
  obtain ⟨hr, huu, hsc, hh, hfe, hfl⟩ := hst
  simp only [optimise, hr]
  obtain ⟨population, r1, hini⟩ : ∃ a b, initPopulation vars cfg.population_size t.rng
      = (a, b) := ⟨_, _, rfl⟩
  rw [hini]
  dsimp only
  have hst1 : SameModId { s with rng := r1 } { t with rng := r1 } :=
    ⟨rfl, huu, hsc, hh, hfe, hfl⟩
  obtain ⟨h1, h2⟩ := evalPopulation_sim cfg g solver population hst1
  obtain ⟨ress, s2, hes⟩ : ∃ a b, evalPopulation cfg g solver population
      { s with rng := r1 } = (a, b) := ⟨_, _, rfl⟩
  obtain ⟨rest0, t2, het⟩ : ∃ a b, evalPopulation cfg g solver population
      { t with rng := r1 } = (a, b) := ⟨_, _, rfl⟩
  rw [hes, het] at h1 h2
  have h1' : ress = rest0 := h1
  have h2' : SameModId s2 t2 := h2
  subst h1'
  rw [hes, het]
  cases ress with
  | error e => exact ⟨rfl, h2'⟩
  | ok fitness0 =>
    dsimp only
    obtain ⟨hl1, hl2⟩ := runLoop_sim cfg vars g solver cfg.generations 0
      population fitness0 h2'
    obtain ⟨res3, s3, hls⟩ : ∃ a b, runLoop cfg vars g solver cfg.generations 0
        population fitness0 s2 = (a, b) := ⟨_, _, rfl⟩
    obtain ⟨res4, t3, hlt⟩ : ∃ a b, runLoop cfg vars g solver cfg.generations 0
        population fitness0 t2 = (a, b) := ⟨_, _, rfl⟩
    rw [hls, hlt] at hl1 hl2
    have hl1' : res3 = res4 := hl1
    have hl2' : SameModId s3 t3 := hl2
    subst hl1'
    rw [hls, hlt]
    cases res3 with
    | error e => exact ⟨rfl, hl2'⟩
    | ok pr =>
      obtain ⟨pop', fit'⟩ := pr
      dsimp only
      cases argmaxFirst (fit'.map Prod.fst) with
      | error e => exact ⟨rfl, hl2'⟩
      | ok best_index =>
        dsimp only
        cases pyIndex pop' best_index with
        | error e => exact ⟨rfl, hl2'⟩
        | ok best_individual =>
          dsimp only
          cases pyIndex fit' best_index with
          | error e => exact ⟨rfl, hl2'⟩
          | ok bp => exact ⟨rfl, hl2'⟩

/-- Claim C4 (amended): with a fixed random seed (identical `random` streams),
identical configuration and a deterministic stub evaluator, two runs return
the same result and produce ledgers that are identical entry for entry and
field for field EXCEPT in the `design_id` field, whose values come from
`uuid.uuid4()` — a source outside the seeded generator; if the uuid draws
also coincide, the runs are fully identical. -/
theorem C4_theorem (cfg : OptimizerConfig) (vars : List DesignVariable)
    (g : GeometryConfig) (solver : Solver) (units gaussv : ℕ → ℚ) (ints : ℕ → ℕ)
    (uuids1 uuids2 : ℕ → String) :
    (optimise cfg vars g solver (mkState units gaussv ints uuids1)).1
      = (optimise cfg vars g solver (mkState units gaussv ints uuids2)).1 ∧
    (optimise cfg vars g solver (mkState units gaussv ints uuids1)).2.history.map stripRec
      = (optimise cfg vars g solver (mkState units gaussv ints uuids2)).2.history.map
          stripRec ∧
    (optimise cfg vars g solver
        (mkState units gaussv ints uuids1)).2.ledgerFile.lines.map stripLine
      = (optimise cfg vars g solver
          (mkState units gaussv ints uuids2)).2.ledgerFile.lines.map stripLine ∧
    (uuids1 = uuids2 →
      optimise cfg vars g solver (mkState units gaussv ints uuids1)
        = optimise cfg vars g solver (mkState units gaussv ints uuids2)) := by
  have hst : SameModId (mkState units gaussv ints uuids1) (mkState units gaussv ints uuids2) :=
    ⟨rfl, rfl, rfl, rfl, rfl, rfl⟩
  obtain ⟨h1, h2⟩ := optimise_sim cfg vars g solver hst
  exact ⟨h1, h2.2.2.2.1, h2.2.2.2.2.2, fun h => by rw [h]⟩

/-- Witness for C4: the amended statement instantiated on the §8 scenario
streams with two different uuid streams. -/
theorem C4_witness :
    (optimise cfgSpec8 varsXY geomFix sumSolver
        (mkState unitsSpec8 gaussZero intsZero (uuidsTag "a"))).1
      = (optimise cfgSpec8 varsXY geomFix sumSolver
          (mkState unitsSpec8 gaussZero intsZero (uuidsTag "b"))).1 ∧
    (optimise cfgSpec8 varsXY geomFix sumSolver
        (mkState unitsSpec8 gaussZero intsZero (uuidsTag "a"))).2.history.map stripRec
      = (optimise cfgSpec8 varsXY geomFix sumSolver
          (mkState unitsSpec8 gaussZero intsZero (uuidsTag "b"))).2.history.map stripRec ∧
    (optimise cfgSpec8 varsXY geomFix sumSolver
        (mkState unitsSpec8 gaussZero intsZero
          (uuidsTag "a"))).2.ledgerFile.lines.map stripLine
      = (optimise cfgSpec8 varsXY geomFix sumSolver
          (mkState unitsSpec8 gaussZero intsZero
            (uuidsTag "b"))).2.ledgerFile.lines.map stripLine ∧
    (uuidsTag "a" = uuidsTag "b" →
      optimise cfgSpec8 varsXY geomFix sumSolver
          (mkState unitsSpec8 gaussZero intsZero (uuidsTag "a"))
        = optimise cfgSpec8 varsXY geomFix sumSolver
            (mkState unitsSpec8 gaussZero intsZero (uuidsTag "b"))) :=
  C4_theorem cfgSpec8 varsXY geomFix sumSolver unitsSpec8 gaussZero intsZero
    (uuidsTag "a") (uuidsTag "b")

end Fluent

